import Mathlib

/-!
Verification development for the twig-graft genealogical merging engine.

The Python source is shallowly embedded: `datetime.date` values become
proleptic-Gregorian ordinals (`Int`, days since 0001-01-00, exactly
`datetime.date.toordinal`), `datetime.timedelta` becomes an `Int` day count,
Python `None`-able attributes become `Option`, Python exceptions become
`Except Unit`, and Python dicts become association lists in insertion order.
-/

deriving instance DecidableEq for Except

namespace TwigGraft

/-- Python truthiness of an optional string (`None` and `""` are falsy). -/
def truthyStr : Option String → Bool
  | none => false
  | some s => !(decide (s = ""))

/-- Python truthiness of a notes list: `self.notes and self.notes != [None]`
(entries of a notes list may be `None` or strings). -/
def truthyNotes : Option (List (Option String)) → Bool
  | none => false
  | some l => !(l.isEmpty) && !(decide (l = [none]))

/-- A reference to a source description (data_model.Source). -/
structure Source where
  repository : Option String
  volume : Option String
  page_number : Option Int
  entry_number : Option Int
  image_file : Option String
deriving DecidableEq

/-- A date or date range (data_model.Date).  `start`/`end` are
`datetime.date` values, embedded as proleptic-Gregorian ordinals;
`accuracy` is a `timedelta`, embedded as its day count.  The Python
attribute `end` is spelled `end_` because `end` is reserved in Lean. -/
structure Date where
  start : Int
  end_ : Int
  accuracy : Int
  notes : Option (List (Option String))
deriving DecidableEq

/-- Ordinal of 2020-01-01 (`datetime.date(2020,1,1).toordinal()`). -/
def ord20200101 : Int := 737425

/-- Ordinal of 1492-01-01 (`datetime.date(1492,1,1).toordinal()`). -/
def ord14920101 : Int := 544577

/-- The value `Date("2020-01-01")`: degenerate interval, accuracy 0 days. -/
def date20200101 : Date := ⟨ord20200101, ord20200101, 0, none⟩

/-- The value `Date("1492-01-01")`: degenerate interval, accuracy 0 days. -/
def date14920101 : Date := ⟨ord14920101, ord14920101, 0, none⟩

/-- Value of the dynamically-typed `Duration.year_day_ambiguity` attribute:
a bool or `None` when a Duration is constructed directly, or the raw string
produced by `str(...)` after a JSON round trip. -/
inductive YDA where
  | v (b : Option Bool)
  | raw (s : String)
deriving DecidableEq

/-- A duration (data_model.Duration).  The derived `duration` timedelta is
never serialized nor used by the comparison code and is omitted. -/
structure Duration where
  duration_list : List Int
  precision : String
  year_day_ambiguity : YDA
  notes : Option (List (Option String))
deriving DecidableEq

/-- A location (data_model.Location, a Statement subclass). -/
structure Location where
  house_number : Option Int
  alt_house_number : Option Int
  alt_village : Option String
  notes : Option (List (Option String))
  confidence : Option String
deriving DecidableEq

/-- The `content` of a Fact: a string or an integer. -/
inductive Content where
  | s (v : String)
  | i (v : Int)
deriving DecidableEq

/-- Python truthiness of an optional Fact content (falsy: `None`, `""`, `0`). -/
def truthyContent : Option Content → Bool
  | none => false
  | some (.s v) => !(decide (v = ""))
  | some (.i v) => !(decide (v = 0))

/-- A fact about a person or relationship (data_model.Fact, a Conclusion).
`date` is `none` when the attribute is Python `None` (JSON import with no
"date" key) and `some []` for the default empty list of direct construction;
both are falsy at every use site. -/
structure Fact where
  fact_type : Option String
  content : Option Content
  date : Option (List Date)
  age : Option (List Duration)
  locations : Option (List Location)
  sources : Option (List Source)
  notes : Option (List (Option String))
  confidence : Option String
deriving DecidableEq

/-- A name of a person (data_model.Name, a Conclusion).  `name_parts` is a
dict from part kind ("prefix", "given", "surname", "suffix", "house") to the
raw string, embedded as an association list in insertion order. -/
structure Name where
  name_type : Option String
  name_parts : List (String × String)
  standard_given : Option String
  standard_surname : Option String
  date : Option Date
  sources : Option (List Source)
  notes : Option (List (Option String))
  confidence : Option String
deriving DecidableEq

/-- A description of a person (data_model.Person, a Conclusion).  The src
Person class has no `merged` attribute; the merger-facing tombstone flag is
modelled separately (see the Merger namespace). -/
structure Person where
  identifier : String
  gender : Option String
  names : Option (List Name)
  facts : Option (List Fact)
  sources : Option (List Source)
  notes : Option (List (Option String))
  confidence : Option String
deriving DecidableEq

/-- A relationship edge payload (data_model.Relationship, a Conclusion). -/
structure Relationship where
  from_id : String
  to_id : String
  relationship_type : String
  facts : Option (List Fact)
  sources : Option (List Source)
  notes : Option (List (Option String))
  confidence : Option String
deriving DecidableEq

/-- Flat list of a Person's names (`Person.get_names` builds a defaultdict
grouping this list by `name_type`; the grouping is realized by the
`name_type` filters inside `name_match`).  The dict is Python-truthy exactly
when this list is nonempty. -/
def get_names (p : Person) : List Name := p.names.getD []

/-- Flat list of a Person's facts (`Person.get_facts` groups by `fact_type`). -/
def get_facts (p : Person) : List Fact := p.facts.getD []

/-- Membership of a fact type: `fact in self.get_facts().keys()`. -/
def has_fact (p : Person) (fact : String) : Bool :=
  (get_facts p).any (fun f => decide (f.fact_type = some fact))

/-- Date list of the unique Birth fact (`Person.birth_date`).  Raises
`ValueError` (modelled as `.error ()`) when the Person has more than one
Birth fact; yields `none` when it has none. -/
def birth_date (p : Person) : Except Unit (Option (List Date)) :=
  match (get_facts p).filter (fun f => decide (f.fact_type = some "Birth")) with
  | [] => .ok none
  | [f] => .ok f.date
  | _ => .error ()

/-- Date list of the unique Death fact (`Person.death_date`), mirroring
`birth_date`. -/
def death_date (p : Person) : Except Unit (Option (List Date)) :=
  match (get_facts p).filter (fun f => decide (f.fact_type = some "Death")) with
  | [] => .ok none
  | [f] => .ok f.date
  | _ => .error ()

/-- Python truthiness of a Fact's date attribute (`None` and `[]` falsy). -/
def truthyDates : Option (List Date) → Bool
  | none => false
  | some l => !l.isEmpty

/-- Interval-overlap test for two dates (comparison.date_overlap). -/
def date_overlap (date1 date2 : Date) : Bool :=
  decide (date1.start - date1.accuracy ≤ date2.end_ + date2.accuracy) &&
  decide (date2.start - date2.accuracy ≤ date1.end_ + date1.accuracy)

/-- Pairwise overlap over two date lists (comparison.datelist_overlap);
the Python double loop returns at the first overlapping pair. -/
def datelist_overlap (datelist1 datelist2 : List Date) : Bool :=
  datelist1.any (fun date1 => datelist2.any (fun date2 => date_overlap date1 date2))

/-- Earliest-start date of a list (comparison.earliest): the running best
starts at the freshly constructed sentinel `Date("2020-01-01")` and is
replaced on strictly smaller starts. -/
def earliest (datelist : List Date) : Date :=
  datelist.foldl (fun out date => if date.start < out.start then date else out) date20200101

/-- Latest-end date of a list (comparison.latest), sentinel `Date("1492-01-01")`. -/
def latest (datelist : List Date) : Date :=
  datelist.foldl (fun out date => if out.end_ < date.end_ then date else out) date14920101

/-- Modelled from the spec: `Date.is_before`, which is called by
`comparison.birth_death_match` but is not defined in the provided source.
The spec requires "the earliest Birth must be strictly before the latest
Death"; for interval dates this is possible exactly when the first interval
starts strictly before the second ends. -/
def is_before (d1 d2 : Date) : Bool := decide (d1.start < d2.end_)

/-- Comparison of one standardized name part of two Names
(comparison.compare_name_part).  The leading `None` guard and the
`ValueError` branch for an unknown part are unreachable from `name_match`,
which always passes real Name objects and the parts "given"/"surname";
the raw name parts fetched on lines 28-29 are never used. -/
def compare_name_part (name1 name2 : Name) (part : String) : Option Bool :=
  let standard1 := if part = "given" then name1.standard_given else name1.standard_surname
  let standard2 := if part = "given" then name2.standard_given else name2.standard_surname
  if truthyStr standard1 && truthyStr standard2 then
    some (decide (standard1 = standard2))
  else
    none

/-- Comparison of both parts of two Names (comparison.compare_fullname):
`some true` on a definite full match, `some false` on a definite
impossibility, `none` otherwise. -/
def compare_fullname (name1 name2 : Name) (disqualify_surname_mismatch : Bool) : Option Bool :=
  let given_comp := compare_name_part name1 name2 "given"
  let surname_comp := compare_name_part name1 name2 "surname"
  match given_comp with
  | some false => some false
  | gc =>
    let mts : Nat := if gc = some true then 1 else 0
    match surname_comp with
    | none => if mts = 2 then some true else none
    | some sc =>
      if disqualify_surname_mismatch && !sc then some false
      else
        let mts := if sc then mts + 1 else mts
        if mts = 2 then some true else none

/-- Married and unknown names of a Person, in the grouped-dict order used by
`name_match` (`names1list`): all "married" names first, then all "unknown"
names, each group in insertion order. -/
def married_unknown (names : List Name) : List Name :=
  names.filter (fun n => decide (n.name_type = some "married")) ++
  names.filter (fun n => decide (n.name_type = some "unknown"))

/-- One iteration shape of the nested comparison loops of `name_match`:
compares `n1` against every element of `l2`, accumulating
(match count, comparison count); `none` models the early `return -1, 0` taken at the
first definite disagreement. -/
def cross_one (n1 : Name) (l2 : List Name) (mc : Nat × Nat) : Option (Nat × Nat) :=
  match l2 with
  | [] => some mc
  | n2 :: rest =>
    let comp := compare_fullname n1 n2 false
    match comp with
    | some false => none
    | c => cross_one n1 rest (if c = some true then mc.1 + 1 else mc.1, mc.2 + 1)

/-- Left-hand variant of `cross_one`: compares every element of `l1` against
the fixed `n2` (the `for name1 in names1list` loop against `birth2`). -/
def cross_one_left (l1 : List Name) (n2 : Name) (mc : Nat × Nat) : Option (Nat × Nat) :=
  match l1 with
  | [] => some mc
  | n1 :: rest =>
    let comp := compare_fullname n1 n2 false
    match comp with
    | some false => none
    | c => cross_one_left rest n2 (if c = some true then mc.1 + 1 else mc.1, mc.2 + 1)

/-- Full cross comparison of the two married/unknown lists (the nested
`for name1 ... for name2 ...` loops of `name_match`). -/
def cross_all (l1 l2 : List Name) (mc : Nat × Nat) : Option (Nat × Nat) :=
  match l1 with
  | [] => some mc
  | n1 :: rest =>
    match cross_one n1 l2 mc with
    | none => none
    | some mc => cross_all rest l2 mc

/-- Birth-name-versus-birth-name step of `name_match` (surname mismatch
disqualifies). -/
def birth_step (birth1 birth2 : Option Name) (mc : Nat × Nat) : Option (Nat × Nat) :=
  match birth1, birth2 with
  | some b1, some b2 =>
    match compare_fullname b1 b2 true with
    | some false => none
    | c => some (if c = some true then mc.1 + 1 else mc.1, mc.2 + 1)
  | _, _ => some mc

/-- First birth Name of a Person's name list:
`names.pop("birth", [None])[0]`. -/
def birth_head (names : List Name) : Option Name :=
  (names.filter (fun n => decide (n.name_type = some "birth"))).head?

/-- Sequence of the four comparison stages of `name_match` (birth-vs-birth,
full cross product, birth1 against the other side, the other side against
birth2), each feeding the running (matches, comparisons) counters into the
next; `none` models the early `return -1, 0`. -/
def name_match_pipeline (birth1 birth2 : Option Name) (names1list names2list : List Name) :
    Option (Nat × Nat) :=
  (((birth_step birth1 birth2 (0, 0)).bind
      (fun mc => cross_all names1list names2list mc)).bind
     (fun mc => match birth1 with
                | some b1 => cross_one b1 names2list mc
                | none => some mc)).bind
    (fun mc => match birth2 with
               | some b2 => cross_one_left names1list b2 mc
               | none => some mc)

/-- Count of name agreements and comparisons (comparison.name_match).  The
first component is `-1` exactly when the Python function takes one of its
`return -1, 0` branches. -/
def name_match (names1 names2 : List Name) : Int × Nat :=
  if names1.isEmpty || names2.isEmpty then (0, 0)
  else
    match name_match_pipeline (birth_head names1) (birth_head names2)
        (married_unknown names1) (married_unknown names2) with
    | none => (-1, 0)
    | some (m, c) => ((m : Int), c)

/-- Clause-3/4 comparison of `birth_death_match`:
`earliest(birth).is_before(latest(death))`. -/
def birth_before_death (birthlist deathlist : List Date) : Bool :=
  is_before (earliest birthlist) (latest deathlist)

/-- Pure core of `comparison.birth_death_match`, taking the four computed
date attributes; first component `-1` signals a definite mismatch. -/
def bdm_core (birth1 birth2 death1 death2 : Option (List Date)) : Int × Nat :=
  let c1 := truthyDates birth1 && truthyDates birth2
  if c1 && !datelist_overlap (birth1.getD []) (birth2.getD []) then (-1, 0)
  else
    let m : Nat := if c1 then 1 else 0
    let c : Nat := if c1 then 1 else 0
    let c2 := truthyDates death1 && truthyDates death2
    if c2 && !datelist_overlap (death1.getD []) (death2.getD []) then (-1, 0)
    else
      let m := if c2 then m + 1 else m
      let c := if c2 then c + 1 else c
      let c3 := truthyDates birth1 && truthyDates death2
      if c3 && !birth_before_death (birth1.getD []) (death2.getD []) then (-1, 0)
      else
        let m := if c3 then m + 1 else m
        let c := if c3 then c + 1 else c
        let c4 := truthyDates birth2 && truthyDates death1
        if c4 && !birth_before_death (birth2.getD []) (death1.getD []) then (-1, 0)
        else ((if c4 then m + 1 else m : Nat), if c4 then c + 1 else c)

/-- Date-consistency comparison (comparison.birth_death_match): fetches the
four date attributes up front, propagating the first `ValueError` raised by
`birth_date`/`death_date`, then runs the pure clause chain `bdm_core`. -/
def birth_death_match (person1 person2 : Person) : Except Unit (Int × Nat) :=
  match birth_date person1, birth_date person2, death_date person1, death_date person2 with
  | .ok birth1, .ok birth2, .ok death1, .ok death2 => .ok (bdm_core birth1 birth2 death1 death2)
  | .error e, _, _, _ => .error e
  | _, .error e, _, _ => .error e
  | _, _, .error e, _ => .error e
  | _, _, _, .error e => .error e

/-- Mismatch oracle (comparison.person_mismatch): `true` when the two
Persons cannot be the same individual.  Checks, in order: Stillbirth,
gender inequality, definite name disagreement, definite date disagreement.
The function contains no marital-status (Coelebs) rule: that rule exists
only in `compare_person`. -/
def person_mismatch (person1 person2 : Person) : Except Unit Bool :=
  if has_fact person1 "Stillbirth" || has_fact person2 "Stillbirth" then .ok true
  else if !(decide (person1.gender = person2.gender)) then .ok true
  else if (name_match (get_names person1) (get_names person2)).1 = -1 then .ok true
  else
    match birth_death_match person1 person2 with
    | .error e => .error e
    | .ok dm => if dm.1 = -1 then .ok true else .ok false

/-- Trivial relationship-type equality used as the MCS edge oracle
(birth_merge.edge_match compares the `relationship_type` of the two edges). -/
def relation_type_equal (r1 r2 : Relationship) : Bool :=
  decide (r1.relationship_type = r2.relationship_type)

/-- Copy of a Person with every Coelebs fact removed; used to state that
`person_mismatch` is insensitive to marital-status facts. -/
def strip_coelebs (p : Person) : Person :=
  { p with facts := p.facts.map (fun l => l.filter (fun f => !decide (f.fact_type = some "Coelebs"))) }

end TwigGraft

/-!
Embedding of the MCS engine (mcgregor.py).  Graphs are embedded as node and
edge lists in insertion order (networkx iterates both in insertion order);
the Python dicts `node_matching` and `assignments` are association lists in
insertion order; `math.inf` bounds are `Option Nat` with `none` as infinity.
The recursion of `graph_matcher` is driven by explicit fuel; `mcgregor`
supplies `node_matching.length + 1`, which always suffices because every
recursive call removes at least one node from the todo list.
-/

namespace McG

/-- A directed simple graph: nodes and edges in insertion order. -/
structure DiGraph (V : Type) where
  nodes : List V
  edges : List (V × V)
deriving DecidableEq

/-- Edge test (`graph2.has_edge`). -/
def hasEdge {V : Type} [DecidableEq V] (g : DiGraph V) (u v : V) : Bool :=
  decide ((u, v) ∈ g.edges)

/-- The bound-and-result state of `NodeMatching` that survives backtracking:
the three bound counters and the list of maximal assignments found so far.
`none` plays the role of `math.inf`. -/
structure MatchAcc (V : Type) where
  maximal_edges_removed : Option Nat
  maximal_nodes_removed : Option Nat
  edges_in_maximal_subgraph : Nat
  maximal_common_subgraphs : List (List (V × V))
deriving DecidableEq

/-- Comparison `n < bound` against a possibly-infinite bound. -/
def ltB (n : Nat) (b : Option Nat) : Bool :=
  match b with
  | none => true
  | some m => decide (n < m)

/-- Comparison `n > bound` against a possibly-infinite bound. -/
def gtB (n : Nat) (b : Option Nat) : Bool :=
  match b with
  | none => false
  | some m => decide (m < n)

/-- The non-null part of the assignments:
`{k: v for (k, v) in self.assignments.items() if v is not None}`. -/
def filter_non_null {V : Type} (assignments : List (V × Option V)) : List (V × V) :=
  assignments.filterMap (fun kv => kv.2.map (fun v => (kv.1, v)))

/-- `NodeMatching.add_as_maximal` (mcgregor.py lines 92-116): record the
current assignments as a maximal common subgraph, clearing the list first
when the new subgraph is strictly larger, then monotonically update the two
removal bounds. -/
def add_as_maximal {V : Type} (acc : MatchAcc V) (assignments : List (V × Option V))
    (edges_removed edges_added nodes_removed : Nat) : MatchAcc V :=
  let acc1 :=
    if decide (acc.edges_in_maximal_subgraph < edges_added)
        || ltB nodes_removed acc.maximal_nodes_removed then
      { acc with maximal_common_subgraphs := [filter_non_null assignments],
                 edges_in_maximal_subgraph := edges_added }
    else if decide (edges_added = acc.edges_in_maximal_subgraph)
        && decide (acc.maximal_nodes_removed = some nodes_removed) then
      { acc with maximal_common_subgraphs :=
          acc.maximal_common_subgraphs ++ [filter_non_null assignments] }
    else acc
  let acc2 :=
    if ltB edges_removed acc1.maximal_edges_removed then
      { acc1 with maximal_edges_removed := some edges_removed }
    else acc1
  if ltB nodes_removed acc2.maximal_nodes_removed then
    { acc2 with maximal_nodes_removed := some nodes_removed }
  else acc2

/-- Value of `matching.assignments.get(n, g2node)` (mcgregor.py line 165):
the stored assignment of `n`, or `g2node` when `n` is unassigned (the only
unassigned endpoint of a possible edge is the node currently being tried). -/
def assign_get {V : Type} [DecidableEq V] (assignments : List (V × Option V)) (n : V)
    (g2node : V) : Option V :=
  match assignments.find? (fun kv => decide (kv.1 = n)) with
  | some kv => kv.2
  | none => some g2node

/-- Compatibility of one g1 edge under the tentative assignment
(mcgregor.py lines 164-179): the corresponding g2 edge must exist and the
edge comparison must accept it. -/
def edge_compatible {V : Type} [DecidableEq V] (graph2 : DiGraph V)
    (edge_comparison : V → V → V → V → Bool) (assignments : List (V × Option V))
    (g2node : V) (e : V × V) : Bool :=
  match assign_get assignments e.1 g2node, assign_get assignments e.2 g2node with
  | some v1, some v2 => hasEdge graph2 v1 v2 && edge_comparison e.1 e.2 v1 v2
  | _, _ => false

/-- The edge-counting loop of `graph_matcher` (mcgregor.py lines 162-185):
starting from the saved counters, every possible edge is counted as added
when compatible and as removed otherwise. -/
def count_edges {V : Type} [DecidableEq V] (graph2 : DiGraph V)
    (edge_comparison : V → V → V → V → Bool) (assignments : List (V × Option V))
    (g2node : V) (edges : List (V × V)) (edges_removed edges_added : Nat) : Nat × Nat :=
  edges.foldl
    (fun p e =>
      if edge_compatible graph2 edge_comparison assignments g2node e then (p.1, p.2 + 1)
      else (p.1 + 1, p.2))
    (edges_removed, edges_added)

/-- `edges_to_subgraph_directed` (mcgregor.py lines 233-241): out-edges and
in-edges of the new node whose other endpoint is already assigned non-null. -/
def edges_to_subgraph_directed {V : Type} [DecidableEq V] (graph1 : DiGraph V)
    (assignments : List (V × Option V)) (new_node : V) : List (V × V) :=
  let subg := (assignments.filter (fun kv => kv.2.isSome)).map Prod.fst
  let out_edges := (graph1.edges.filter (fun e => decide (e.1 = new_node))).filter
    (fun e => decide (e.1 ∈ subg) || decide (e.2 ∈ subg))
  let in_edges := (graph1.edges.filter (fun e => decide (e.2 = new_node))).filter
    (fun e => decide (e.1 ∈ subg) || decide (e.2 ∈ subg))
  out_edges ++ in_edges

/-- Candidate list of a g1 node (`matching.g2nodes`, the `node_matching`
dict lookup; the key is always present at the call site). -/
def lookup_matching {V : Type} [DecidableEq V] (node_matching : List (V × List V)) (k : V) :
    List V :=
  match node_matching.find? (fun kv => decide (kv.1 = k)) with
  | some kv => kv.2
  | none => []

/-- The `for g2node in g2_possible_nodes` loop of `graph_matcher`
(mcgregor.py lines 159-197): for each candidate in order, count the edges,
prune when the removed-edge bound is exceeded (`continue`), otherwise
tentatively assign and recurse (the recursive call is abstracted as
`recurse`, applied to the extended assignments, the two updated edge
counters, the unchanged removed-node counter and the accumulator); the
accumulator threads left to right, the per-branch state is restored on
return as in the Python `pop`. -/
def candidate_loop {V : Type} [DecidableEq V]
    (recurse : List (V × Option V) → Nat → Nat → Nat → MatchAcc V → MatchAcc V)
    (graph2 : DiGraph V) (edge_comparison : V → V → V → V → Bool)
    (assignments : List (V × Option V)) (g1node : V) (g1_possible_edges : List (V × V))
    (edges_removed edges_added nodes_removed : Nat) (cands : List V) (acc : MatchAcc V) :
    MatchAcc V :=
  match cands with
  | [] => acc
  | g2node :: rest =>
    let er_ea := count_edges graph2 edge_comparison assignments g2node g1_possible_edges
      edges_removed edges_added
    let acc' :=
      if gtB er_ea.1 acc.maximal_edges_removed then acc
      else recurse (assignments ++ [(g1node, some g2node)]) er_ea.1 er_ea.2 nodes_removed acc
    candidate_loop recurse graph2 edge_comparison assignments g1node g1_possible_edges
      edges_removed edges_added nodes_removed rest acc'

/-- The recursive depth-first branch-and-bound search `graph_matcher`
(mcgregor.py lines 137-224).  The mutable `NodeMatching` state is split
into the per-branch values (`assignments` and the three counters, restored
on backtrack in Python, hence passed downward only) and the persistent
accumulator `acc` threaded left to right.  `fuel` only bounds the recursion
depth; one unit is consumed per call and the todo list shrinks at every
recursive call, so any fuel exceeding the todo length is equivalent. -/
def graph_matcher {V : Type} [DecidableEq V] (fuel : Nat) (graph1 graph2 : DiGraph V)
    (edge_comparison : V → V → V → V → Bool) (node_matching : List (V × List V))
    (null_matches_allowed : Bool) (assignments : List (V × Option V))
    (edges_removed edges_added nodes_removed : Nat) (acc : MatchAcc V) : MatchAcc V :=
  match fuel with
  | 0 => acc
  | fuel' + 1 =>
    let g1todo := (node_matching.map Prod.fst).filter
      (fun x => decide (x ∉ assignments.map Prod.fst))
    match g1todo with
    | [] =>
      let new_maximal := !(gtB edges_removed acc.maximal_edges_removed)
        && !(decide (edges_added < acc.edges_in_maximal_subgraph))
        && !(gtB nodes_removed acc.maximal_nodes_removed)
      if new_maximal then add_as_maximal acc assignments edges_removed edges_added nodes_removed
      else acc
    | g1node :: _ =>
      let g1_possible_edges := edges_to_subgraph_directed graph1 assignments g1node
      let g2_possible_nodes := (lookup_matching node_matching g1node).filter
        (fun x => decide (some x ∉ assignments.map Prod.snd))
      if g2_possible_nodes.isEmpty then
        graph_matcher fuel' graph1 graph2 edge_comparison node_matching null_matches_allowed
          (assignments ++ [(g1node, none)]) edges_removed edges_added (nodes_removed + 1) acc
      else
        let acc1 := candidate_loop
          (fun a e1 e2 n acc' =>
            graph_matcher fuel' graph1 graph2 edge_comparison node_matching
              null_matches_allowed a e1 e2 n acc')
          graph2 edge_comparison assignments g1node g1_possible_edges
          edges_removed edges_added nodes_removed g2_possible_nodes acc
        if null_matches_allowed && ltB nodes_removed acc1.maximal_nodes_removed then
          graph_matcher fuel' graph1 graph2 edge_comparison node_matching null_matches_allowed
            (assignments ++ [(g1node, none)]) edges_removed edges_added (nodes_removed + 1) acc1
        else acc1

/-- Result record of `mcgregor`: the returned `NodeMatching` fields used by
callers, plus the candidate map for stating properties about it. -/
structure MCSResult (V : Type) where
  node_matching : List (V × List V)
  maximal_edges_removed : Option Nat
  maximal_nodes_removed : Option Nat
  edges_in_maximal_subgraph : Nat
  maximal_common_subgraphs : List (List (V × V))
deriving DecidableEq

/-- The graph that plays the G1 role (`small`, mcgregor.py lines 255-260):
the input with strictly fewer nodes, ties going to the second input. -/
def small_graph {V : Type} (graph1 graph2 : DiGraph V) : DiGraph V :=
  if graph1.nodes.length < graph2.nodes.length then graph1 else graph2

/-- The graph that plays the G2 role (`big`). -/
def big_graph {V : Type} (graph1 graph2 : DiGraph V) : DiGraph V :=
  if graph1.nodes.length < graph2.nodes.length then graph2 else graph1

/-- The candidate map `node_matches` (mcgregor.py lines 262-267): a
defaultdict keyed by small-graph nodes; a key is created only when the node
comparison accepts at least one big-graph node, so a node with an empty
candidate set is absent from the dict (and hence from the search). -/
def node_matches_of {V : Type} (small big : DiGraph V) (node_comparison : V → V → Bool) :
    List (V × List V) :=
  small.nodes.filterMap (fun s =>
    let cands := big.nodes.filter (fun b => node_comparison s b)
    if cands.isEmpty then none else some (s, cands))

/-- Top-level `mcgregor` (mcgregor.py lines 119-280) for directed graphs
with both comparisons supplied, as invoked by birth_merge: the smaller
graph takes the G1 role, the candidate map is precomputed, null matches
are allowed (a node comparison was supplied), and the search runs only
when the candidate map is nonempty. -/
def mcgregor {V : Type} [DecidableEq V] (graph1 graph2 : DiGraph V)
    (node_comparison : V → V → Bool) (edge_comparison : V → V → V → V → Bool) :
    MCSResult V :=
  let small := small_graph graph1 graph2
  let big := big_graph graph1 graph2
  let node_matches := node_matches_of small big node_comparison
  let acc0 : MatchAcc V := ⟨none, none, 0, []⟩
  let acc :=
    if node_matches.isEmpty then acc0
    else
      graph_matcher (node_matches.length + 1) small big edge_comparison node_matches true
        [] 0 0 0 acc0
  ⟨node_matches, acc.maximal_edges_removed, acc.maximal_nodes_removed,
    acc.edges_in_maximal_subgraph, acc.maximal_common_subgraphs⟩

end McG

namespace BirthMerge

/-- Stable insertion of one twig into a queue that is ascending by length:
the new twig goes after every queued twig of smaller or equal length.
`foldl` over this models Python's `sorted(..., key=len)`, which is a
stable ascending sort. -/
def insort {α : Type} (x : List α) (q : List (List α)) : List (List α) :=
  match q with
  | [] => [x]
  | y :: t => if y.length ≤ x.length then y :: insort x t else x :: y :: t

/-- `twig_queue = sorted(list(nx.weakly_connected_components(...)), key=len)`
(birth_merge.py line 71): the pending twigs in a stable ascending order by
size. -/
def twig_queue {α : Type} (twigs : List (List α)) : List (List α) :=
  twigs.foldl (fun acc x => insort x acc) []

/-- `new_twig = list(twig_queue.pop())` (birth_merge.py line 79): Python's
`list.pop()` with no argument removes and returns the LAST element. -/
def queue_pop {α : Type} (q : List (List α)) : Option (List α × List (List α)) :=
  match q.getLast? with
  | none => none
  | some t => some (t, q.dropLast)

/-- Merger-level view of a graph node: the Person identity plus the
`merged` tombstone flag consulted by the merge loop. -/
structure MPerson where
  identifier : String
  merged : Bool
deriving DecidableEq

/-- Merger-level view of an edge payload (`Relationship`): the two endpoint
ids, the relationship type, and the dates of its facts (the only Fact
content consulted by the relation-merge conflict check). -/
structure MRel where
  from_id : String
  to_id : String
  relationship_type : String
  dates : List TwigGraft.Date
deriving DecidableEq

/-- The shared mutable graph of the merger (`the_graph`): a networkx
DiGraph whose nodes carry a person and whose edges carry a relation, both
as insertion-ordered association lists. -/
structure MGraph where
  nodes : List (String × MPerson)
  edges : List ((String × String) × MRel)
deriving DecidableEq

/-- `the_graph.nodes[k]["person"]`. -/
def getPerson (g : MGraph) (k : String) : Option MPerson :=
  (g.nodes.find? (fun kv => decide (kv.1 = k))).map Prod.snd

/-- Whether the node `k` exists and carries `merged=True`. -/
def isMergedNode (g : MGraph) (k : String) : Bool :=
  match getPerson g k with
  | some p => p.merged
  | none => false

/-- `{node for node in the_graph.successors(p) if not ...merged}`
(birth_merge.py lines 155-156). -/
def liveSucc (g : MGraph) (k : String) : List String :=
  ((g.edges.filter (fun e => decide (e.1.1 = k))).map (fun e => e.1.2)).filter
    (fun n => !isMergedNode g n)

/-- `{node for node in the_graph.predecessors(p) if not ...merged}`. -/
def livePred (g : MGraph) (k : String) : List String :=
  ((g.edges.filter (fun e => decide (e.1.2 = k))).map (fun e => e.1.1)).filter
    (fun n => !isMergedNode g n)

/-- `the_graph.edges[u, v]["relation"]`. -/
def getEdge (g : MGraph) (u v : String) : Option MRel :=
  (g.edges.find? (fun e => decide (e.1 = (u, v)))).map Prod.snd

/-- `the_graph.add_node(k, person=p)`: networkx replaces the attributes of
an existing node and appends a new node otherwise. -/
def setPerson (g : MGraph) (k : String) (p : MPerson) : MGraph :=
  if g.nodes.any (fun kv => decide (kv.1 = k)) then
    { g with nodes := g.nodes.map (fun kv => if kv.1 = k then (k, p) else kv) }
  else
    { g with nodes := g.nodes ++ [(k, p)] }

/-- `the_graph.add_edge(u, v, relation=r)`: networkx replaces the
attributes of an existing edge and appends a new edge otherwise. -/
def addEdge (g : MGraph) (u v : String) (r : MRel) : MGraph :=
  if g.edges.any (fun e => decide (e.1 = (u, v))) then
    { g with edges := g.edges.map (fun e => if e.1 = (u, v) then ((u, v), r) else e) }
  else
    { g with edges := g.edges ++ [((u, v), r)] }

/-- `the_graph.remove_edge(u, v)`. -/
def removeEdge (g : MGraph) (u v : String) : MGraph :=
  { g with edges := g.edges.filter (fun e => !decide (e.1 = (u, v))) }

/-- Modelled from the spec: `Relation.merge(other)` requires both inputs to
share `relationship_type` and endpoints (after reassignment to the merged
id), unions the facts, and raises `RelationMergeConflict` on irreconcilable
facts — contradictory dates whose intervals do not overlap.  Facts are
modelled by their date lists, so the conflict test is: both fact lists are
dated and no pair of dates overlaps. -/
def relationMerge (r1 r2 : MRel) : Except Unit MRel :=
  if decide (r1.relationship_type = r2.relationship_type) &&
      decide (r1.from_id = r2.from_id) && decide (r1.to_id = r2.to_id) then
    if !r1.dates.isEmpty && !r2.dates.isEmpty &&
        !TwigGraft.datelist_overlap r1.dates r2.dates then
      .error ()
    else
      .ok ⟨r1.from_id, r1.to_id, r1.relationship_type, r1.dates ++ r2.dates⟩
  else
    .error ()

/-- Modelled from the spec: `Person.merge(other)` returns a fresh Person
`p_m` plus two provenance relations `self.id → p_m.id` and
`other.id → p_m.id` of the distinguished type `merged-into`; the fresh
identifier is modelled as the concatenation of the two parent ids, which
keeps it distinct from both. -/
def personMerge (p1 p2 : MPerson) : MPerson × MRel × MRel :=
  let mid := p1.identifier ++ "+" ++ p2.identifier
  (⟨mid, false⟩,
   ⟨p1.identifier, mid, "merged-into", []⟩,
   ⟨p2.identifier, mid, "merged-into", []⟩)

/-- Live successors shared by both merge candidates (`p1_succ & p2_succ`). -/
def sharedSucc (g : MGraph) (p1 p2 : String) : List String :=
  (liveSucc g p1).filter (fun n => decide (n ∈ liveSucc g p2))

/-- Live predecessors shared by both merge candidates (`p1_pred & p2_pred`). -/
def sharedPred (g : MGraph) (p1 p2 : String) : List String :=
  (livePred g p1).filter (fun n => decide (n ∈ livePred g p2))

/-- Whether an attempted relation merge succeeded. -/
def mergeOk (r : Except Unit MRel) : Bool :=
  match r with
  | .ok _ => true
  | .error _ => false

/-- The pre-flight check (birth_merge.py lines 163-180): for every shared
live successor, tentatively merge deep copies of the two edge relations
with `from_id` set to `"merged"`; likewise for shared predecessors with
`to_id` set to `"merged"`.  True iff no attempt raises. -/
def preflight_ok (g : MGraph) (p1 p2 : String) : Bool :=
  (sharedSucc g p1 p2).all (fun n =>
    match getEdge g p1 n, getEdge g p2 n with
    | some r1, some r2 =>
      mergeOk (relationMerge { r1 with from_id := "merged" } { r2 with from_id := "merged" })
    | _, _ => true) &&
  (sharedPred g p1 p2).all (fun n =>
    match getEdge g n p1, getEdge g n p2 with
    | some r1, some r2 =>
      mergeOk (relationMerge { r1 with to_id := "merged" } { r2 with to_id := "merged" })
    | _, _ => true)

/-- The committed merge of one pair (birth_merge.py lines 182-230): node
merge with provenance edges, rerouting of exclusive edges, merging of
shared edges, and the tombstone marking of the two predecessors (spec
lifecycle step 5; `Person.merge` and the marking are not in src). -/
def commitPair (g : MGraph) (p1 p2 : String) : MGraph :=
  match getPerson g p1, getPerson g p2 with
  | some per1, some per2 =>
    let p1_succ := liveSucc g p1
    let p1_pred := livePred g p1
    let p2_succ := liveSucc g p2
    let p2_pred := livePred g p2
    let mpr := personMerge per1 per2
    let mid := mpr.1.identifier
    let g := setPerson g mid mpr.1
    let g := addEdge g mpr.2.1.from_id mpr.2.1.to_id mpr.2.1
    let g := addEdge g mpr.2.2.from_id mpr.2.2.to_id mpr.2.2
    let g := (p1_succ.filter (fun n => !decide (n ∈ p2_succ))).foldl (fun g n =>
      match getEdge g p1 n with
      | some r => addEdge (removeEdge g p1 n) mid n { r with from_id := mid }
      | none => g) g
    let g := (p2_succ.filter (fun n => !decide (n ∈ p1_succ))).foldl (fun g n =>
      match getEdge g p2 n with
      | some r => addEdge (removeEdge g p2 n) mid n { r with from_id := mid }
      | none => g) g
    let g := (p1_pred.filter (fun n => !decide (n ∈ p2_pred))).foldl (fun g n =>
      match getEdge g n p1 with
      | some r => addEdge (removeEdge g n p1) n mid { r with to_id := mid }
      | none => g) g
    let g := (p2_pred.filter (fun n => !decide (n ∈ p1_pred))).foldl (fun g n =>
      match getEdge g n p2 with
      | some r => addEdge (removeEdge g n p2) n mid { r with to_id := mid }
      | none => g) g
    let g := (p1_succ.filter (fun n => decide (n ∈ p2_succ))).foldl (fun g n =>
      match getEdge g p1 n, getEdge g p2 n with
      | some ra, some rb =>
        match relationMerge { ra with from_id := mid } { rb with from_id := mid } with
        | .ok rm => addEdge (removeEdge (removeEdge g p1 n) p2 n) mid n rm
        | .error _ => g
      | _, _ => g) g
    let g := (p1_pred.filter (fun n => decide (n ∈ p2_pred))).foldl (fun g n =>
      match getEdge g n p1, getEdge g n p2 with
      | some ra, some rb =>
        match relationMerge { ra with to_id := mid } { rb with to_id := mid } with
        | .ok rm => addEdge (removeEdge (removeEdge g n p1) n p2) n mid rm
        | .error _ => g
      | _, _ => g) g
    let g := setPerson g p1 { per1 with merged := true }
    setPerson g p2 { per2 with merged := true }
  | _, _ => g

/-- Processing of one matched pair inside the `for p1, p2 in match.items()`
loop: `none` when the pre-flight check raises (`except ValueError`),
otherwise the committed graph. -/
def processPair (g : MGraph) (p1 p2 : String) : Option MGraph :=
  if preflight_ok g p1 p2 then some (commitPair g p1 p2) else none

/-- The whole `for p1, p2 in match.items()` loop (birth_merge.py lines
153-230): pairs are processed in order, and a pre-flight failure executes
`break`, abandoning every remaining pair of the match. -/
def processMatch (g : MGraph) (pairs : List (String × String)) : MGraph :=
  match pairs with
  | [] => g
  | (p1, p2) :: rest =>
    match processPair g p1 p2 with
    | none => g
    | some g2 => processMatch g2 rest

/-- A concrete graph on which the pair (a1, a2) fails its pre-flight check
(both have a spouse edge to the shared live successor n, with
non-overlapping dates), while the isolated pair (b1, b2) would merge
cleanly. -/
def c1_example_graph : MGraph :=
  ⟨[("a1", ⟨"a1", false⟩), ("a2", ⟨"a2", false⟩), ("n", ⟨"n", false⟩),
    ("b1", ⟨"b1", false⟩), ("b2", ⟨"b2", false⟩)],
   [(("a1", "n"), ⟨"a1", "n", "spouse", [⟨100, 100, 0, none⟩]⟩),
    (("a2", "n"), ⟨"a2", "n", "spouse", [⟨300, 300, 0, none⟩]⟩)]⟩

end BirthMerge

namespace PJson

/-- The JSON values produced and consumed by data_model.  An ISO-8601 date
string (the `isoformat()` of a `datetime.date`) is represented by the
proleptic-Gregorian ordinal of the date it denotes: `isoformat` and
`strptime` are mutually inverse bijections between dates and their ISO
strings, so this keeps string round-trips faithful without formatting
arithmetic. -/
inductive Json where
  | null : Json
  | num (n : Int) : Json
  | str (s : String) : Json
  | date (ordinal : Int) : Json
  | arr (items : List Json) : Json
  | obj (fields : List (String × Json)) : Json

/-- A possibly-`None` Python string as a JSON value. -/
def optStr : Option String → Json
  | none => .null
  | some s => .str s

/-- A possibly-`None` Python int as a JSON value. -/
def optInt : Option Int → Json
  | none => .null
  | some n => .num n

/-- A notes list (entries may be `None`) as a JSON array. -/
def notes_json (l : List (Option String)) : Json := .arr (l.map optStr)

/-- Python truthiness of a possibly-`None` list attribute. -/
def truthyList {α : Type} : Option (List α) → Bool
  | none => false
  | some l => !l.isEmpty

/-- One conditionally-present JSON object field. -/
def segKey (c : Bool) (k : String) (v : Json) : List (String × Json) :=
  if c then [(k, v)] else []

/-- `Statement.json` (data_model.py lines 62-66): `confidence` always,
`notes` when truthy and not `[None]`. -/
def statement_json (confidence : Option String)
    (notes : Option (List (Option String))) : List (String × Json) :=
  ("confidence", optStr confidence) ::
    segKey (TwigGraft.truthyNotes notes) "notes" (notes_json (notes.getD []))

/-- `Source.json` (data_model.py lines 758-761): all five keys always. -/
def source_json (s : TwigGraft.Source) : Json :=
  .obj [("repository", optStr s.repository), ("volume", optStr s.volume),
        ("page_number", optInt s.page_number), ("entry_number", optInt s.entry_number),
        ("image_file", optStr s.image_file)]

/-- `Conclusion.json` (data_model.py lines 104-108): `sources` when truthy,
then the Statement fields. -/
def conclusion_json (sources : Option (List TwigGraft.Source))
    (confidence : Option String) (notes : Option (List (Option String))) :
    List (String × Json) :=
  segKey (truthyList sources) "sources" (.arr ((sources.getD []).map source_json))
    ++ statement_json confidence notes

/-- `Date.json` (data_model.py lines 620-626): `start`/`end` as ISO strings,
`accuracy` as a day count, `notes` when truthy and not `[None]`. -/
def date_json (d : TwigGraft.Date) : Json :=
  .obj (("start", .date d.start) :: ("end", .date d.end_) ::
    ("accuracy", .num d.accuracy) ::
    segKey (TwigGraft.truthyNotes d.notes) "notes" (notes_json (d.notes.getD [])))

/-- The string `str(self.year_day_ambiguity)` (data_model.py line 707). -/
def ydaStr : TwigGraft.YDA → String
  | .v none => "None"
  | .v (some true) => "True"
  | .v (some false) => "False"
  | .raw s => s

/-- `Duration.json` (data_model.py lines 705-710). -/
def duration_json (d : TwigGraft.Duration) : Json :=
  .obj (("duration", .arr (d.duration_list.map Json.num)) ::
    ("precision", .str d.precision) ::
    ("year_day_ambiguity", .str (ydaStr d.year_day_ambiguity)) ::
    segKey (TwigGraft.truthyNotes d.notes) "notes" (notes_json (d.notes.getD [])))

/-- `Location.json` (data_model.py lines 541-545). -/
def location_json (l : TwigGraft.Location) : Json :=
  .obj (("house_number", optInt l.house_number) ::
    ("alt_house_number", optInt l.alt_house_number) ::
    ("alt_village", optStr l.alt_village) ::
    statement_json l.confidence l.notes)

/-- A Fact content value as JSON. -/
def content_json : TwigGraft.Content → Json
  | .s v => .str v
  | .i v => .num v

/-- `Fact.json` (data_model.py lines 193-204): `fact_type` always; `content`,
`age`, `date`, `locations` when truthy; then the Conclusion fields. -/
def fact_json (f : TwigGraft.Fact) : Json :=
  .obj (("fact_type", optStr f.fact_type) ::
    (segKey (TwigGraft.truthyContent f.content) "content"
        (content_json (f.content.getD (.s "")))
      ++ segKey (truthyList f.age) "age" (.arr ((f.age.getD []).map duration_json))
      ++ segKey (TwigGraft.truthyDates f.date) "date"
        (.arr ((f.date.getD []).map date_json))
      ++ segKey (truthyList f.locations) "locations"
        (.arr ((f.locations.getD []).map location_json))
      ++ conclusion_json f.sources f.confidence f.notes))

/-- `Name.json` (data_model.py lines 285-292): the four name fields always
(even when `None`), `date` when present, then the Conclusion fields. -/
def name_json (n : TwigGraft.Name) : Json :=
  .obj (("name_type", optStr n.name_type) ::
    ("name_parts", .obj (n.name_parts.map (fun kv => (kv.1, Json.str kv.2)))) ::
    ("standard_surname", optStr n.standard_surname) ::
    ("standard_given", optStr n.standard_given) ::
    (segKey n.date.isSome "date" (date_json (n.date.getD ⟨0, 0, 0, none⟩))
      ++ conclusion_json n.sources n.confidence n.notes))

/-- `Person.json` (data_model.py lines 355-362): `identifier` and `gender`
always; `names` and `facts` when truthy; then the Conclusion fields.  No
`merged` key exists anywhere in the serialization. -/
def person_json (p : TwigGraft.Person) : Json :=
  .obj (("identifier", .str p.identifier) :: ("gender", optStr p.gender) ::
    (segKey (truthyList p.names) "names" (.arr ((p.names.getD []).map name_json))
      ++ segKey (truthyList p.facts) "facts" (.arr ((p.facts.getD []).map fact_json))
      ++ conclusion_json p.sources p.confidence p.notes))

/-- Dictionary lookup `json_dict[k]` / `k in json_dict`. -/
def getKey (j : Json) (k : String) : Option Json :=
  match j with
  | .obj fields => (fields.find? (fun kv => decide (kv.1 = k))).map Prod.snd
  | _ => none

/-- `k in json_dict`. -/
def hasKey (j : Json) (k : String) : Bool := (getKey j k).isSome

/-- A JSON value as a possibly-`None` string attribute. -/
def asOptStr : Json → Option String
  | .str s => some s
  | _ => none

/-- A JSON value as a possibly-`None` int attribute. -/
def asOptInt : Json → Option Int
  | .num n => some n
  | _ => none

/-- `json_dict.get(k, None)` read back as a string attribute. -/
def getOptStr (j : Json) (k : String) : Option String := (getKey j k).bind asOptStr

/-- `json_dict.get(k, None)` read back as an int attribute. -/
def getOptInt (j : Json) (k : String) : Option Int := (getKey j k).bind asOptInt

/-- `json_dict.get("notes", None)`: a notes array read back. -/
def notes_parse (j : Json) : Option (List (Option String)) :=
  match getKey j "notes" with
  | some (.arr items) => some (items.map asOptStr)
  | _ => none

/-- `Source(json_dict=x)` (data_model.py lines 744-749): every field via
`.get`; fails only on a non-dict. -/
def source_parse (j : Json) : Option TwigGraft.Source :=
  match j with
  | .obj _ => some ⟨getOptStr j "repository", getOptStr j "volume",
      getOptInt j "page_number", getOptInt j "entry_number", getOptStr j "image_file"⟩
  | _ => none

/-- Elementwise parsing of a JSON array (`[C(json_dict=x) for x in ...]`). -/
def parseList {α : Type} (pf : Json → Option α) : List Json → Option (List α)
  | [] => some []
  | x :: t =>
    match pf x, parseList pf t with
    | some a, some l => some (a :: l)
    | _, _ => none

/-- An optional list-valued field: absent key means attribute `None`,
a present key must hold an array whose elements all parse. -/
def arrField {α : Type} (pf : Json → Option α) (j : Json) (k : String) :
    Option (Option (List α)) :=
  match getKey j k with
  | some (.arr items) => (parseList pf items).map some
  | some _ => none
  | none => some none

/-- `Date(json_dict=x)` (data_model.py lines 586-589): `start`, `end` and
`accuracy` are required, `notes` via `.get`. -/
def date_parse (j : Json) : Option TwigGraft.Date :=
  match getKey j "start", getKey j "end", getKey j "accuracy" with
  | some (.date s), some (.date e), some (.num a) => some ⟨s, e, a, notes_parse j⟩
  | _, _, _ => none

/-- Integer entries of a duration list. -/
def intList_parse : List Json → Option (List Int)
  | [] => some []
  | .num n :: t => (intList_parse t).map (fun l => n :: l)
  | _ :: _ => none

/-- `Duration(json_dict=x)` (data_model.py lines 679-683):
`year_day_ambiguity` is read back VERBATIM — the string written by
`str(...)`, not a bool. -/
def duration_parse (j : Json) : Option TwigGraft.Duration :=
  match getKey j "duration", getKey j "precision", getKey j "year_day_ambiguity" with
  | some (.arr items), some (.str p), some (.str y) =>
    (intList_parse items).map (fun ns => ⟨ns, p, .raw y, notes_parse j⟩)
  | _, _, _ => none

/-- `Location(json_dict=x)` (data_model.py lines 530-534). -/
def location_parse (j : Json) : Option TwigGraft.Location :=
  match j with
  | .obj _ => some ⟨getOptInt j "house_number", getOptInt j "alt_house_number",
      getOptStr j "alt_village", notes_parse j, getOptStr j "confidence"⟩
  | _ => none

/-- A Fact content value read back (string or int). -/
def content_parse : Json → Option TwigGraft.Content
  | .str s => some (.s s)
  | .num n => some (.i n)
  | _ => none

/-- `json_dict.get("content", None)`. -/
def getContent (j : Json) : Option TwigGraft.Content :=
  (getKey j "content").bind content_parse

/-- `Fact(fact_type=None, json_dict=x)` (data_model.py lines 155-170):
`fact_type` is a required key; `date`, `age`, `locations`, `sources` are
optional arrays; `content`, `notes`, `confidence` via `.get`. -/
def fact_parse (j : Json) : Option TwigGraft.Fact :=
  match getKey j "fact_type", arrField date_parse j "date",
      arrField duration_parse j "age", arrField location_parse j "locations",
      arrField source_parse j "sources" with
  | some ft, some dates, some ages, some locs, some srcs =>
    some ⟨asOptStr ft, getContent j, dates, ages, locs, srcs,
      notes_parse j, getOptStr j "confidence"⟩
  | _, _, _, _, _ => none

/-- String-valued name parts read back from the `name_parts` dict. -/
def pairs_parse : List (String × Json) → Option (List (String × String))
  | [] => some []
  | (k, .str v) :: t => (pairs_parse t).map (fun l => (k, v) :: l)
  | _ :: _ => none

/-- `Name(name_type=None, name_parts=..., json_dict=x)` (data_model.py lines
258-266): `name_type` and `name_parts` are required keys, `date` is an
optional single Date, the standard forms via `.get`. -/
def name_parse (j : Json) : Option TwigGraft.Name :=
  match getKey j "name_type", getKey j "name_parts", arrField source_parse j "sources" with
  | some nt, some (.obj parts), some srcs =>
    match pairs_parse parts with
    | some pl =>
      match getKey j "date" with
      | some dj =>
        (date_parse dj).map (fun dt =>
          ⟨asOptStr nt, pl, getOptStr j "standard_given",
            getOptStr j "standard_surname", some dt, srcs,
            notes_parse j, getOptStr j "confidence"⟩)
      | none =>
        some ⟨asOptStr nt, pl, getOptStr j "standard_given",
          getOptStr j "standard_surname", none, srcs,
          notes_parse j, getOptStr j "confidence"⟩
    | none => none
  | _, _, _ => none

/-- `Person(json_dict=x)` (data_model.py lines 321-333): `identifier` is a
required key, `names`/`facts`/`sources` optional arrays, `gender`, `notes`
and `confidence` via `.get`. -/
def person_parse (j : Json) : Option TwigGraft.Person :=
  match getKey j "identifier", arrField name_parse j "names",
      arrField fact_parse j "facts", arrField source_parse j "sources" with
  | some (.str pid), some nms, some fcts, some srcs =>
    some ⟨pid, getOptStr j "gender", nms, fcts, srcs,
      notes_parse j, getOptStr j "confidence"⟩
  | _, _, _, _ => none

/-- The notes attribute surviving one serialize/parse cycle: dropped when
falsy or `[None]`. -/
def notes_rt (o : Option (List (Option String))) : Option (List (Option String)) :=
  if TwigGraft.truthyNotes o then some (o.getD []) else none

/-- The content attribute surviving one serialize/parse cycle. -/
def content_rt (o : Option TwigGraft.Content) : Option TwigGraft.Content :=
  if TwigGraft.truthyContent o then some (o.getD (.s "")) else none

/-- An optional list attribute surviving one cycle, elementwise canonized. -/
def optList_rt {α : Type} (f : α → α) (o : Option (List α)) : Option (List α) :=
  if truthyList o then some ((o.getD []).map f) else none

/-- A Date after one serialize/parse cycle. -/
def date_canon (d : TwigGraft.Date) : TwigGraft.Date :=
  ⟨d.start, d.end_, d.accuracy, notes_rt d.notes⟩

/-- A Duration after one cycle: `year_day_ambiguity` degrades to the raw
string written by `str(...)`. -/
def duration_canon (d : TwigGraft.Duration) : TwigGraft.Duration :=
  ⟨d.duration_list, d.precision, .raw (ydaStr d.year_day_ambiguity), notes_rt d.notes⟩

/-- A Location after one cycle. -/
def location_canon (l : TwigGraft.Location) : TwigGraft.Location :=
  ⟨l.house_number, l.alt_house_number, l.alt_village, notes_rt l.notes, l.confidence⟩

/-- A Fact after one cycle. -/
def fact_canon (f : TwigGraft.Fact) : TwigGraft.Fact :=
  ⟨f.fact_type, content_rt f.content, optList_rt date_canon f.date,
    optList_rt duration_canon f.age, optList_rt location_canon f.locations,
    optList_rt (fun s => s) f.sources, notes_rt f.notes, f.confidence⟩

/-- A Name after one cycle. -/
def name_canon (n : TwigGraft.Name) : TwigGraft.Name :=
  ⟨n.name_type, n.name_parts, n.standard_given, n.standard_surname,
    n.date.map date_canon, optList_rt (fun s => s) n.sources,
    notes_rt n.notes, n.confidence⟩

/-- A Person after one cycle. -/
def person_canon (p : TwigGraft.Person) : TwigGraft.Person :=
  ⟨p.identifier, p.gender, optList_rt name_canon p.names,
    optList_rt fact_canon p.facts, optList_rt (fun s => s) p.sources,
    notes_rt p.notes, p.confidence⟩

end PJson

/-!
Helper lemmas and claim theorems for the comparison oracles.
-/

namespace TwigGraft

theorem any_filter_of_imp {α : Type} (l : List α) (p q : α → Bool)
    (h : ∀ a, q a = true → p a = true) : (l.filter p).any q = l.any q := by
  induction l with
  | nil => rfl
  | cons a t ih =>
    by_cases hp : p a = true
    · simp [List.filter_cons, hp, List.any_cons, ih]
    · have hq : q a = false := by
        cases hqa : q a
        · rfl
        · exact absurd (h a hqa) (by simp [hp])
      simp [List.filter_cons, hp, hq, List.any_cons, ih]

theorem filter_filter_of_imp {α : Type} (l : List α) (p q : α → Bool)
    (h : ∀ a, q a = true → p a = true) : (l.filter p).filter q = l.filter q := by
  induction l with
  | nil => rfl
  | cons a t ih =>
    by_cases hp : p a = true
    · simp [List.filter_cons, hp, ih]
    · have hq : q a = false := by
        cases hqa : q a
        · rfl
        · exact absurd (h a hqa) (by simp [hp])
      simp [List.filter_cons, hp, hq, ih]

theorem get_facts_strip_coelebs (p : Person) :
    get_facts (strip_coelebs p)
      = (get_facts p).filter (fun f => !decide (f.fact_type = some "Coelebs")) := by
  cases hf : p.facts <;> simp [get_facts, strip_coelebs, hf]

theorem has_fact_strip_coelebs (p : Person) (t : String) (ht : t ≠ "Coelebs") :
    has_fact (strip_coelebs p) t = has_fact p t := by
  rw [has_fact, get_facts_strip_coelebs]
  refine any_filter_of_imp _ _ _ (fun f hq => ?_)
  have : f.fact_type = some t := by simpa using hq
  simp [this, ht]

theorem birth_date_strip_coelebs (p : Person) :
    birth_date (strip_coelebs p) = birth_date p := by
  rw [birth_date, get_facts_strip_coelebs, birth_date]
  rw [filter_filter_of_imp]
  intro f hq
  have : f.fact_type = some "Birth" := by simpa using hq
  simp [this]

theorem death_date_strip_coelebs (p : Person) :
    death_date (strip_coelebs p) = death_date p := by
  rw [death_date, get_facts_strip_coelebs, death_date]
  rw [filter_filter_of_imp]
  intro f hq
  have : f.fact_type = some "Death" := by simpa using hq
  simp [this]

/-- C3 (amended): `person_mismatch` contains no marital-status rule at all:
removing every Coelebs fact from either Person never changes its result.
The Coelebs/spouse/married-name check of the specification is implemented
only in `compare_person` (which takes the graph), not in `person_mismatch`. -/
theorem c3_person_mismatch_ignores_coelebs (p1 p2 : Person) :
    person_mismatch (strip_coelebs p1) (strip_coelebs p2) = person_mismatch p1 p2 := by
  have hg1 : (strip_coelebs p1).gender = p1.gender := rfl
  have hn1 : get_names (strip_coelebs p1) = get_names p1 := rfl
  have hg2 : (strip_coelebs p2).gender = p2.gender := rfl
  have hn2 : get_names (strip_coelebs p2) = get_names p2 := rfl
  simp only [person_mismatch, birth_death_match,
    has_fact_strip_coelebs p1 "Stillbirth" (by decide),
    has_fact_strip_coelebs p2 "Stillbirth" (by decide),
    birth_date_strip_coelebs, death_date_strip_coelebs, hg1, hn1, hg2, hn2]

/-- C3 counterexample: a never-married (`Coelebs`) man compared with a man
carrying a `married` Name.  The specification's rule 5 demands a mismatch,
but `person_mismatch` returns `false`: the Coelebs rule is absent from it. -/
theorem c3_coelebs_married_no_mismatch :
    has_fact ⟨"p1", some "m", none,
        some [⟨some "Coelebs", none, some [], some [], none, none, none, some "normal"⟩],
        none, none, some "normal"⟩ "Coelebs" = true
    ∧ (⟨some "married", [("surname", "X")], none, some "X", none, none, none,
        some "normal"⟩ : Name).name_type = some "married"
    ∧ person_mismatch
        ⟨"p1", some "m", none,
          some [⟨some "Coelebs", none, some [], some [], none, none, none, some "normal"⟩],
          none, none, some "normal"⟩
        ⟨"p2", some "m",
          some [⟨some "married", [("surname", "X")], none, some "X", none, none, none,
            some "normal"⟩],
          none, none, none, some "normal"⟩
      = .ok false := by
  refine ⟨by decide, by decide, by decide⟩

theorem birth_date_ok_of_le_one (p : Person)
    (h : ((get_facts p).filter (fun f => decide (f.fact_type = some "Birth"))).length ≤ 1) :
    ∃ v, birth_date p = .ok v := by
  rcases hf : (get_facts p).filter (fun f => decide (f.fact_type = some "Birth")) with _ | ⟨a, _ | ⟨b, t⟩⟩
  · exact ⟨none, by rw [birth_date, hf]⟩
  · exact ⟨a.date, by rw [birth_date, hf]⟩
  · rw [hf] at h; simp at h

theorem death_date_ok_of_le_one (p : Person)
    (h : ((get_facts p).filter (fun f => decide (f.fact_type = some "Death"))).length ≤ 1) :
    ∃ v, death_date p = .ok v := by
  rcases hf : (get_facts p).filter (fun f => decide (f.fact_type = some "Death")) with _ | ⟨a, _ | ⟨b, t⟩⟩
  · exact ⟨none, by rw [death_date, hf]⟩
  · exact ⟨a.date, by rw [death_date, hf]⟩
  · rw [hf] at h; simp at h

/-- C5 (amended): `person_mismatch` terminates with a boolean (raises no
exception) on every pair of Persons that respect the data-model invariant
of at most one Birth fact and at most one Death fact each; it propagates
the `ValueError` of `Person.birth_date`/`Person.death_date` otherwise.
Side-effect-freeness holds as claimed: `name_match` pops only from the
fresh dicts built by `get_names`, never mutating its arguments. -/
theorem c5_person_mismatch_total_on_invariant (p1 p2 : Person)
    (hb1 : ((get_facts p1).filter (fun f => decide (f.fact_type = some "Birth"))).length ≤ 1)
    (hd1 : ((get_facts p1).filter (fun f => decide (f.fact_type = some "Death"))).length ≤ 1)
    (hb2 : ((get_facts p2).filter (fun f => decide (f.fact_type = some "Birth"))).length ≤ 1)
    (hd2 : ((get_facts p2).filter (fun f => decide (f.fact_type = some "Death"))).length ≤ 1) :
    ∃ b, person_mismatch p1 p2 = .ok b := by
  obtain ⟨v1, h1⟩ := birth_date_ok_of_le_one p1 hb1
  obtain ⟨v2, h2⟩ := birth_date_ok_of_le_one p2 hb2
  obtain ⟨w1, h3⟩ := death_date_ok_of_le_one p1 hd1
  obtain ⟨w2, h4⟩ := death_date_ok_of_le_one p2 hd2
  simp only [person_mismatch, birth_death_match, h1, h2, h3, h4]
  split
  · exact ⟨true, rfl⟩
  · split
    · exact ⟨true, rfl⟩
    · split
      · exact ⟨true, rfl⟩
      · split
        · exact ⟨true, rfl⟩
        · exact ⟨false, rfl⟩

/-- C5 witness: the amended totality theorem applied to two concrete
Persons that satisfy the fact invariant. -/
theorem c5_witness :
    ∃ b, person_mismatch ⟨"a", some "m", none, none, none, none, some "normal"⟩
        ⟨"b", some "m", none, none, none, none, some "normal"⟩ = .ok b :=
  c5_person_mismatch_total_on_invariant _ _ (by decide) (by decide) (by decide) (by decide)

/-- C5 counterexample: a Person with two Birth facts makes `person_mismatch`
raise `ValueError` (from `Person.birth_date`), contradicting the claim that
the predicate never raises. -/
theorem c5_double_birth_raises :
    person_mismatch
        ⟨"d", some "m", none,
          some [⟨some "Birth", none, some [⟨100, 100, 0, none⟩], some [], none, none, none,
                  some "normal"⟩,
                ⟨some "Birth", none, some [⟨200, 200, 0, none⟩], some [], none, none, none,
                  some "normal"⟩],
          none, none, none⟩
        ⟨"d", some "m", none,
          some [⟨some "Birth", none, some [⟨100, 100, 0, none⟩], some [], none, none, none,
                  some "normal"⟩,
                ⟨some "Birth", none, some [⟨200, 200, 0, none⟩], some [], none, none, none,
                  some "normal"⟩],
          none, none, none⟩
      = .error () := by decide

/-- C6 (amended): the gender rule of `person_mismatch` fires exactly on raw
inequality of the `gender` attributes.  `None` (unknown) is just another
value: unknown versus known is a mismatch, and only equal values (including
two unknowns) pass the rule. -/
theorem c6_gender_rule_raw_inequality (p1 p2 : Person)
    (h1 : has_fact p1 "Stillbirth" = false) (h2 : has_fact p2 "Stillbirth" = false)
    (hg : p1.gender ≠ p2.gender) :
    person_mismatch p1 p2 = .ok true := by
  simp [person_mismatch, h1, h2, hg]

/-- C6 witness: the amended gender rule applied to concrete Persons with
unequal genders. -/
theorem c6_witness :
    person_mismatch ⟨"a", some "f", none, none, none, none, some "normal"⟩
        ⟨"b", some "m", none, none, none, none, some "normal"⟩ = .ok true :=
  c6_gender_rule_raw_inequality _ _ (by decide) (by decide) (by decide)

/-- C6 counterexample: one gender unknown (`None`), the other known, with no
other data present, yet `person_mismatch` returns `true` — caused by the
gender rule, which the claim says can never fire when a gender is unknown
(no other rule can return `true` here: there are no facts and no names). -/
theorem c6_unknown_gender_mismatch :
    (⟨"u", none, none, none, none, none, some "normal"⟩ : Person).gender = none
    ∧ person_mismatch ⟨"u", none, none, none, none, none, some "normal"⟩
        ⟨"m", some "m", none, none, none, none, some "normal"⟩ = .ok true := by
  refine ⟨rfl, by decide⟩

theorem earliest_foldl_min (l : List Date) (init : Date) :
    (l.foldl (fun out date => if date.start < out.start then date else out) init).start ≤ init.start
    ∧ ∀ d ∈ l, (l.foldl (fun out date => if date.start < out.start then date else out) init).start ≤ d.start := by
  induction l generalizing init with
  | nil => simp
  | cons a t ih =>
    simp only [List.foldl_cons]
    by_cases h : a.start < init.start
    · simp only [if_pos h]
      obtain ⟨h1, h2⟩ := ih a
      refine ⟨by omega, ?_⟩
      intro d hd
      rw [List.mem_cons] at hd
      rcases hd with rfl | hd
      · exact h1
      · exact h2 d hd
    · simp only [if_neg h]
      obtain ⟨h1, h2⟩ := ih init
      refine ⟨h1, ?_⟩
      intro d hd
      rw [List.mem_cons] at hd
      rcases hd with rfl | hd
      · omega
      · exact h2 d hd

theorem earliest_foldl_mem (l : List Date) (init : Date) :
    l.foldl (fun out date => if date.start < out.start then date else out) init = init
    ∨ l.foldl (fun out date => if date.start < out.start then date else out) init ∈ l := by
  induction l generalizing init with
  | nil => simp
  | cons a t ih =>
    simp only [List.foldl_cons]
    by_cases h : a.start < init.start
    · simp only [if_pos h]
      rcases ih a with h' | h'
      · right; rw [h']; exact List.mem_cons_self a t
      · right; exact List.mem_cons_of_mem a h'
    · simp only [if_neg h]
      rcases ih init with h' | h'
      · left; exact h'
      · right; exact List.mem_cons_of_mem a h'

theorem earliest_foldl_fixed (l : List Date) (init : Date)
    (h : ∀ d ∈ l, init.start ≤ d.start) :
    l.foldl (fun out date => if date.start < out.start then date else out) init = init := by
  induction l with
  | nil => rfl
  | cons a t ih =>
    have ha : ¬(a.start < init.start) := by
      have := h a (List.mem_cons_self a t)
      omega
    simp only [List.foldl_cons, if_neg ha]
    exact ih (fun d hd => h d (List.mem_cons_of_mem a hd))

theorem latest_foldl_fixed (l : List Date) (init : Date)
    (h : ∀ d ∈ l, d.end_ ≤ init.end_) :
    l.foldl (fun out date => if out.end_ < date.end_ then date else out) init = init := by
  induction l with
  | nil => rfl
  | cons a t ih =>
    have ha : ¬(init.end_ < a.end_) := by
      have := h a (List.mem_cons_self a t)
      omega
    simp only [List.foldl_cons, if_neg ha]
    exact ih (fun d hd => h d (List.mem_cons_of_mem a hd))

/-- C10: sentinel behavior of `earliest`/`latest` and its effect on the
birth-before-death comparison of `birth_death_match`.  (1) On a nonempty
list whose dates all start strictly before 2020-01-01, `earliest` returns a
list element of minimal start.  (2) If every date starts on or after
2020-01-01, `earliest` returns the freshly constructed sentinel
`Date("2020-01-01")` — a value determined by the function alone, not drawn
from the list (in Python it is a fresh object, distinct by identity from
every element).  (3) Dually, `latest` returns the sentinel
`Date("1492-01-01")` when every list element ends on or before it.  (4) In
those cases the clause-3/4 check of `birth_death_match`,
`earliest(birth).is_before(latest(death))`, is computed against the
sentinel. -/
theorem c10_earliest_latest_sentinels :
    (∀ l : List Date, l ≠ [] → (∀ d ∈ l, d.start < date20200101.start) →
       earliest l ∈ l ∧ ∀ d ∈ l, (earliest l).start ≤ d.start)
    ∧ (∀ l : List Date, (∀ d ∈ l, date20200101.start ≤ d.start) → earliest l = date20200101)
    ∧ (∀ l : List Date, (∀ d ∈ l, d.end_ ≤ date14920101.end_) → latest l = date14920101)
    ∧ (∀ bl dl : List Date, (∀ d ∈ bl, date20200101.start ≤ d.start) →
       birth_before_death bl dl = is_before date20200101 (latest dl)) := by
  have part2 : ∀ l : List Date, (∀ d ∈ l, date20200101.start ≤ d.start) →
      earliest l = date20200101 := fun l h => earliest_foldl_fixed l date20200101 h
  refine ⟨?_, part2, ?_, ?_⟩
  · intro l hne h
    have hE : earliest l
        = l.foldl (fun out date => if date.start < out.start then date else out) date20200101 :=
      rfl
    rw [hE]
    rcases earliest_foldl_mem l date20200101 with he | he
    · exfalso
      rcases l with _ | ⟨d, t⟩
      · exact hne rfl
      · have hd := (earliest_foldl_min (d :: t) date20200101).2 d (List.mem_cons_self d t)
        rw [he] at hd
        have := h d (List.mem_cons_self d t)
        omega
    · exact ⟨he, (earliest_foldl_min l date20200101).2⟩
  · exact fun l h => latest_foldl_fixed l date14920101 h
  · intro bl dl h
    rw [birth_before_death, part2 bl h]

/-- C10 witness: the four conjuncts instantiated at concrete date lists. -/
theorem c10_witness :
    earliest [⟨100, 100, 0, none⟩] ∈ [(⟨100, 100, 0, none⟩ : Date)]
    ∧ earliest [⟨800000, 800000, 0, none⟩] = date20200101
    ∧ latest [⟨100, 100, 0, none⟩] = date14920101
    ∧ birth_before_death [⟨800000, 800000, 0, none⟩] [⟨100, 100, 0, none⟩]
        = is_before date20200101 (latest [⟨100, 100, 0, none⟩]) :=
  ⟨(c10_earliest_latest_sentinels.1 [⟨100, 100, 0, none⟩] (by decide) (by decide)).1,
   c10_earliest_latest_sentinels.2.1 [⟨800000, 800000, 0, none⟩] (by decide),
   c10_earliest_latest_sentinels.2.2.1 [⟨100, 100, 0, none⟩] (by decide),
   c10_earliest_latest_sentinels.2.2.2 [⟨800000, 800000, 0, none⟩] [⟨100, 100, 0, none⟩] (by decide)⟩

end TwigGraft

namespace TwigGraft

theorem compare_name_part_symm (n1 n2 : Name) (part : String) :
    compare_name_part n1 n2 part = compare_name_part n2 n1 part := by
  simp only [compare_name_part]
  by_cases h : part = "given"
  · simp only [if_pos h]
    by_cases h1 : truthyStr n1.standard_given = true <;>
      by_cases h2 : truthyStr n2.standard_given = true <;>
      simp [h1, h2, eq_comm]
  · simp only [if_neg h]
    by_cases h1 : truthyStr n1.standard_surname = true <;>
      by_cases h2 : truthyStr n2.standard_surname = true <;>
      simp [h1, h2, eq_comm]

theorem compare_fullname_symm (n1 n2 : Name) (d : Bool) :
    compare_fullname n1 n2 d = compare_fullname n2 n1 d := by
  rw [compare_fullname, compare_fullname,
    compare_name_part_symm n1 n2 "given", compare_name_part_symm n1 n2 "surname"]

theorem cross_one_eq_none_iff (n1 : Name) (l2 : List Name) (mc : Nat × Nat) :
    cross_one n1 l2 mc = none ↔ ∃ n2 ∈ l2, compare_fullname n1 n2 false = some false := by
  induction l2 generalizing mc with
  | nil => simp [cross_one]
  | cons a t ih =>
    simp only [cross_one]
    rcases hc : compare_fullname n1 a false with _ | b
    · simp [hc, ih]
    · cases b
      · simp [hc]
      · simp [hc, ih]

theorem cross_one_left_eq_none_iff (l1 : List Name) (n2 : Name) (mc : Nat × Nat) :
    cross_one_left l1 n2 mc = none ↔ ∃ n1 ∈ l1, compare_fullname n1 n2 false = some false := by
  induction l1 generalizing mc with
  | nil => simp [cross_one_left]
  | cons a t ih =>
    simp only [cross_one_left]
    rcases hc : compare_fullname a n2 false with _ | b
    · simp [hc, ih]
    · cases b
      · simp [hc]
      · simp [hc, ih]

theorem cross_all_eq_none_iff (l1 l2 : List Name) (mc : Nat × Nat) :
    cross_all l1 l2 mc = none
      ↔ ∃ n1 ∈ l1, ∃ n2 ∈ l2, compare_fullname n1 n2 false = some false := by
  induction l1 generalizing mc with
  | nil => simp [cross_all]
  | cons a t ih =>
    simp only [cross_all]
    rcases h : cross_one a l2 mc with _ | mc'
    · have ha := (cross_one_eq_none_iff a l2 mc).mp h
      simp [ha]
    · have ha : ¬ ∃ n2 ∈ l2, compare_fullname a n2 false = some false := by
        intro hx
        have := (cross_one_eq_none_iff a l2 mc).mpr hx
        rw [h] at this
        exact Option.noConfusion this
      simp [ih, ha]

theorem birth_step_eq_none_iff (b1 b2 : Option Name) (mc : Nat × Nat) :
    birth_step b1 b2 mc = none
      ↔ ∃ n1 n2, b1 = some n1 ∧ b2 = some n2 ∧ compare_fullname n1 n2 true = some false := by
  rcases b1 with _ | n1 <;> rcases b2 with _ | n2 <;> simp only [birth_step]
  · simp
  · simp
  · simp
  · rcases hc : compare_fullname n1 n2 true with _ | b
    · simp [hc]
    · cases b
      · simp [hc]
      · simp [hc]

theorem birth_side_eq_none_iff (b1 : Option Name) (l2 : List Name) (mc : Nat × Nat) :
    (match b1 with
     | some bb => cross_one bb l2 mc
     | none => some mc) = none
      ↔ ∃ bb, b1 = some bb ∧ ∃ n2 ∈ l2, compare_fullname bb n2 false = some false := by
  rcases b1 with _ | bb
  · simp
  · simp [cross_one_eq_none_iff]

theorem birth_side_left_eq_none_iff (b2 : Option Name) (l1 : List Name) (mc : Nat × Nat) :
    (match b2 with
     | some bb => cross_one_left l1 bb mc
     | none => some mc) = none
      ↔ ∃ bb, b2 = some bb ∧ ∃ n1 ∈ l1, compare_fullname n1 bb false = some false := by
  rcases b2 with _ | bb
  · simp
  · simp [cross_one_left_eq_none_iff]

/-- Noneness of the `name_match` pipeline depends only on the comparison
outcomes, not on the counters: it equals the existence of some definite
disagreement among the compared name pairs. -/
theorem name_match_pipeline_none_iff (b1 b2 : Option Name) (l1 l2 : List Name) :
    name_match_pipeline b1 b2 l1 l2 = none
      ↔ (∃ n1 n2, b1 = some n1 ∧ b2 = some n2 ∧ compare_fullname n1 n2 true = some false)
        ∨ (∃ n1 ∈ l1, ∃ n2 ∈ l2, compare_fullname n1 n2 false = some false)
        ∨ (∃ bb, b1 = some bb ∧ ∃ n2 ∈ l2, compare_fullname bb n2 false = some false)
        ∨ (∃ bb, b2 = some bb ∧ ∃ n1 ∈ l1, compare_fullname n1 bb false = some false) := by
  rw [name_match_pipeline]
  rcases h1 : birth_step b1 b2 (0, 0) with _ | mc1
  · simp only [Option.none_bind]
    exact iff_of_true trivial (Or.inl ((birth_step_eq_none_iff b1 b2 (0, 0)).mp h1))
  · have hn1 : ¬ ∃ n1 n2, b1 = some n1 ∧ b2 = some n2 ∧ compare_fullname n1 n2 true = some false := by
      intro hx
      have := (birth_step_eq_none_iff b1 b2 (0, 0)).mpr hx
      rw [h1] at this
      exact Option.noConfusion this
    simp only [Option.some_bind]
    rcases h2 : cross_all l1 l2 mc1 with _ | mc2
    · simp only [h2, Option.none_bind]
      exact iff_of_true trivial (Or.inr (Or.inl ((cross_all_eq_none_iff l1 l2 mc1).mp h2)))
    · have hn2 : ¬ ∃ n1 ∈ l1, ∃ n2 ∈ l2, compare_fullname n1 n2 false = some false := by
        intro hx
        have := (cross_all_eq_none_iff l1 l2 mc1).mpr hx
        rw [h2] at this
        exact Option.noConfusion this
      simp only [h2, Option.some_bind]
      rcases h3 : (match b1 with
                   | some bb => cross_one bb l2 mc2
                   | none => some mc2) with _ | mc3
      · simp only [h3, Option.none_bind]
        exact iff_of_true trivial (Or.inr (Or.inr (Or.inl ((birth_side_eq_none_iff b1 l2 mc2).mp h3))))
      · have hn3 : ¬ ∃ bb, b1 = some bb ∧ ∃ n2 ∈ l2, compare_fullname bb n2 false = some false := by
          intro hx
          have := (birth_side_eq_none_iff b1 l2 mc2).mpr hx
          rw [h3] at this
          exact Option.noConfusion this
        simp only [h3, Option.some_bind]
        rw [birth_side_left_eq_none_iff b2 l1 mc3]
        constructor
        · intro h
          exact Or.inr (Or.inr (Or.inr h))
        · rintro (h | h | h | h)
          · exact absurd h hn1
          · exact absurd h hn2
          · exact absurd h hn3
          · exact h

/-- The `-1` outcome of `name_match` characterized: both name dicts
nonempty and some comparison stage found a definite disagreement. -/
theorem name_match_neg_iff (ns1 ns2 : List Name) :
    (name_match ns1 ns2).1 = -1
      ↔ ns1.isEmpty = false ∧ ns2.isEmpty = false
        ∧ name_match_pipeline (birth_head ns1) (birth_head ns2)
            (married_unknown ns1) (married_unknown ns2) = none := by
  rw [name_match]
  by_cases he : (ns1.isEmpty || ns2.isEmpty) = true
  · rw [if_pos he]
    constructor
    · intro hm
      exact absurd hm (by decide)
    · rintro ⟨h1, h2, -⟩
      rw [h1, h2] at he
      exact absurd he (by decide)
  · rw [if_neg he]
    have hff : (ns1.isEmpty || ns2.isEmpty) = false := by
      cases hx : (ns1.isEmpty || ns2.isEmpty)
      · rfl
      · exact absurd hx he
    rw [Bool.or_eq_false_iff] at hff
    obtain ⟨he1, he2⟩ := hff
    rcases hp : name_match_pipeline (birth_head ns1) (birth_head ns2)
        (married_unknown ns1) (married_unknown ns2) with _ | mc
    · simp [he1, he2]
    · rcases mc with ⟨m, c⟩
      constructor
      · intro hm
        exfalso
        have hm' : ((m : Int), c).1 = -1 := hm
        have hm2 : (m : Int) = -1 := hm'
        omega
      · rintro ⟨-, -, hcon⟩
        exact Option.noConfusion hcon

theorem name_match_neg_symm (ns1 ns2 : List Name) :
    (name_match ns1 ns2).1 = -1 ↔ (name_match ns2 ns1).1 = -1 := by
  have key : ∀ a b : List Name,
      name_match_pipeline (birth_head a) (birth_head b) (married_unknown a) (married_unknown b)
          = none →
      name_match_pipeline (birth_head b) (birth_head a) (married_unknown b) (married_unknown a)
          = none := by
    intro a b h
    rw [name_match_pipeline_none_iff] at h ⊢
    rcases h with ⟨n1, n2, hb1, hb2, hc⟩ | ⟨n1, h1, n2, h2, hc⟩ |
        ⟨bb, hb, n2, h2, hc⟩ | ⟨bb, hb, n1, h1, hc⟩
    · exact Or.inl ⟨n2, n1, hb2, hb1, by rw [compare_fullname_symm]; exact hc⟩
    · exact Or.inr (Or.inl ⟨n2, h2, n1, h1, by rw [compare_fullname_symm]; exact hc⟩)
    · exact Or.inr (Or.inr (Or.inr ⟨bb, hb, n2, h2, by rw [compare_fullname_symm]; exact hc⟩))
    · exact Or.inr (Or.inr (Or.inl ⟨bb, hb, n1, h1, by rw [compare_fullname_symm]; exact hc⟩))
  rw [name_match_neg_iff, name_match_neg_iff]
  exact ⟨fun ⟨e1, e2, h⟩ => ⟨e2, e1, key ns1 ns2 h⟩, fun ⟨e1, e2, h⟩ => ⟨e2, e1, key ns2 ns1 h⟩⟩

theorem date_overlap_symm (d1 d2 : Date) : date_overlap d1 d2 = date_overlap d2 d1 := by
  rw [date_overlap, date_overlap, Bool.and_comm]

theorem datelist_overlap_symm (l1 l2 : List Date) :
    datelist_overlap l1 l2 = datelist_overlap l2 l1 := by
  rw [Bool.eq_iff_iff]
  simp only [datelist_overlap, List.any_eq_true]
  constructor
  · rintro ⟨d1, h1, d2, h2, h⟩
    exact ⟨d2, h2, d1, h1, by rw [date_overlap_symm]; exact h⟩
  · rintro ⟨d2, h2, d1, h1, h⟩
    exact ⟨d1, h1, d2, h2, by rw [date_overlap_symm]; exact h⟩

theorem natCast_pair_fst_ne_neg_one (x y : Nat) : ¬(((x : Int), y).1 = -1) := by
  intro h
  have hx : (x : Int) = -1 := h
  omega

theorem bdm_core_neg_iff (b1 b2 d1 d2 : Option (List Date)) :
    (bdm_core b1 b2 d1 d2).1 = -1
      ↔ ((truthyDates b1 && truthyDates b2)
            && !datelist_overlap (b1.getD []) (b2.getD [])) = true
        ∨ ((truthyDates d1 && truthyDates d2)
            && !datelist_overlap (d1.getD []) (d2.getD [])) = true
        ∨ ((truthyDates b1 && truthyDates d2)
            && !birth_before_death (b1.getD []) (d2.getD [])) = true
        ∨ ((truthyDates b2 && truthyDates d1)
            && !birth_before_death (b2.getD []) (d1.getD [])) = true := by
  simp only [bdm_core]
  split
  · next h => exact iff_of_true rfl (Or.inl h)
  · next h1 =>
    split
    · next h => exact iff_of_true rfl (Or.inr (Or.inl h))
    · next h2 =>
      split
      · next h => exact iff_of_true rfl (Or.inr (Or.inr (Or.inl h)))
      · next h3 =>
        split
        · next h => exact iff_of_true rfl (Or.inr (Or.inr (Or.inr h)))
        · next h4 =>
          constructor
          · intro hm
            exact absurd hm (natCast_pair_fst_ne_neg_one _ _)
          · rintro (h | h | h | h)
            · exact absurd h h1
            · exact absurd h h2
            · exact absurd h h3
            · exact absurd h h4

theorem bdm_core_neg_symm (b1 b2 d1 d2 : Option (List Date)) :
    (bdm_core b1 b2 d1 d2).1 = -1 ↔ (bdm_core b2 b1 d2 d1).1 = -1 := by
  rw [bdm_core_neg_iff, bdm_core_neg_iff]
  rw [Bool.and_comm (truthyDates b1) (truthyDates b2),
    Bool.and_comm (truthyDates d1) (truthyDates d2),
    datelist_overlap_symm (b1.getD []) (b2.getD []),
    datelist_overlap_symm (d1.getD []) (d2.getD [])]
  tauto

/-- C8: the mismatch oracle is symmetric, outcome and exception behavior
included: every decision rule of `person_mismatch` (Stillbirth, gender,
name disagreement, date disagreement) and the `ValueError` condition of
`birth_date`/`death_date` are invariant under swapping the two Persons. -/
theorem c8_person_mismatch_symm (p1 p2 : Person) :
    person_mismatch p1 p2 = person_mismatch p2 p1 := by
  rw [person_mismatch, person_mismatch]
  rw [Bool.or_comm (has_fact p1 "Stillbirth") (has_fact p2 "Stillbirth")]
  by_cases hsb : (has_fact p2 "Stillbirth" || has_fact p1 "Stillbirth") = true
  · rw [if_pos hsb, if_pos hsb]
  · rw [if_neg hsb, if_neg hsb]
    have hg : (decide (p1.gender = p2.gender)) = (decide (p2.gender = p1.gender)) := by
      simp [eq_comm]
    rw [hg]
    by_cases hgd : (!decide (p2.gender = p1.gender)) = true
    · rw [if_pos hgd, if_pos hgd]
    · rw [if_neg hgd, if_neg hgd]
      by_cases hn : (name_match (get_names p1) (get_names p2)).1 = -1
      · have hn' := (name_match_neg_symm (get_names p1) (get_names p2)).mp hn
        rw [if_pos hn, if_pos hn']
      · have hn' : ¬(name_match (get_names p2) (get_names p1)).1 = -1 :=
          fun hc => hn ((name_match_neg_symm (get_names p1) (get_names p2)).mpr hc)
        rw [if_neg hn, if_neg hn']
        rw [birth_death_match, birth_death_match]
        rcases e1 : birth_date p1 with u1 | v1 <;>
          rcases e2 : birth_date p2 with u2 | v2 <;>
          rcases e3 : death_date p1 with w1 | x1 <;>
          rcases e4 : death_date p2 with w2 | x2 <;>
          simp only [e1, e2, e3, e4]
        by_cases hb : (bdm_core v1 v2 x1 x2).1 = -1
        · have hb' := (bdm_core_neg_symm v1 v2 x1 x2).mp hb
          rw [if_pos hb, if_pos hb']
        · have hb' : ¬(bdm_core v2 v1 x2 x1).1 = -1 :=
            fun hc => hb ((bdm_core_neg_symm v1 v2 x1 x2).mpr hc)
          rw [if_neg hb, if_neg hb']

end TwigGraft

/-!
Claim theorems about the MCS engine.
-/

namespace McG

theorem filter_non_null_map_snd {V : Type} (a : List (V × Option V)) :
    (filter_non_null a).map Prod.snd = a.filterMap Prod.snd := by
  induction a with
  | nil => rfl
  | cons kv t ih =>
    rcases kv with ⟨k, v⟩
    cases v
    · simpa [filter_non_null, List.filterMap_cons] using ih
    · simpa [filter_non_null, List.filterMap_cons] using ih

theorem filter_non_null_length {V : Type} (a : List (V × Option V)) :
    (filter_non_null a).length
      = a.length - (a.filter (fun kv => kv.2.isNone)).length := by
  induction a with
  | nil => rfl
  | cons kv t ih =>
    rcases kv with ⟨k, v⟩
    have hle := List.length_filter_le (fun kv : V × Option V => kv.2.isNone) t
    cases v
    · have h1 : filter_non_null ((k, (none : Option V)) :: t) = filter_non_null t := rfl
      have h2 : ((k, (none : Option V)) :: t).filter (fun kv => kv.2.isNone)
          = (k, none) :: t.filter (fun kv => kv.2.isNone) := by
        rw [List.filter_cons]
        simp
      rw [h1, h2]
      simp only [List.length_cons]
      rw [ih]
      omega
    · next v =>
      have h1 : filter_non_null ((k, some v) :: t) = (k, v) :: filter_non_null t := rfl
      have h2 : ((k, some v) :: t).filter (fun kv => kv.2.isNone)
          = t.filter (fun kv => kv.2.isNone) := by
        rw [List.filter_cons]
        simp
      rw [h1, h2]
      simp only [List.length_cons]
      rw [ih]
      omega

theorem subs_update_mnr {V : Type} (x : MatchAcc V) (c : Prop) [Decidable c] (v : Option Nat) :
    (if c then { x with maximal_nodes_removed := v } else x).maximal_common_subgraphs
      = x.maximal_common_subgraphs := by
  split <;> rfl

theorem subs_update_mer {V : Type} (x : MatchAcc V) (c : Prop) [Decidable c] (v : Option Nat) :
    (if c then { x with maximal_edges_removed := v } else x).maximal_common_subgraphs
      = x.maximal_common_subgraphs := by
  split <;> rfl

theorem mnr_update_mer {V : Type} (x : MatchAcc V) (c : Prop) [Decidable c] (v : Option Nat) :
    (if c then { x with maximal_edges_removed := v } else x).maximal_nodes_removed
      = x.maximal_nodes_removed := by
  split <;> rfl

theorem mnr_update_mnr {V : Type} (x : MatchAcc V) (c : Prop) [Decidable c] (v : Option Nat) :
    (if c then { x with maximal_nodes_removed := v } else x).maximal_nodes_removed
      = if c then v else x.maximal_nodes_removed := by
  by_cases h : c <;> simp [h]

theorem add_as_maximal_subs {V : Type} (acc : MatchAcc V) (assignments : List (V × Option V))
    (er ea nr : Nat) :
    ∀ m ∈ (add_as_maximal acc assignments er ea nr).maximal_common_subgraphs,
      m ∈ acc.maximal_common_subgraphs ∨ m = filter_non_null assignments := by
  intro m hm
  unfold add_as_maximal at hm
  rw [subs_update_mnr, subs_update_mer] at hm
  by_cases h1 : (decide (acc.edges_in_maximal_subgraph < ea)
      || ltB nr acc.maximal_nodes_removed) = true
  · rw [if_pos h1] at hm
    dsimp only at hm
    rw [List.mem_singleton] at hm
    exact Or.inr hm
  · rw [if_neg h1] at hm
    by_cases h2 : (decide (ea = acc.edges_in_maximal_subgraph)
        && decide (acc.maximal_nodes_removed = some nr)) = true
    · rw [if_pos h2] at hm
      dsimp only at hm
      rcases List.mem_append.mp hm with h | h
      · exact Or.inl h
      · exact Or.inr (List.mem_singleton.mp h)
    · rw [if_neg h2] at hm
      exact Or.inl hm

/-- Values of the assignments stay duplicate-free through the candidate
loop and the recursion, so every recorded matching has duplicate-free
g2-image. -/
theorem graph_matcher_snd_nodup {V : Type} [DecidableEq V] (graph1 graph2 : DiGraph V)
    (ep : V → V → V → V → Bool) (nm : List (V × List V)) (nall : Bool) :
    ∀ (fuel : Nat) (assignments : List (V × Option V)) (er ea nr : Nat) (acc : MatchAcc V),
      (assignments.filterMap Prod.snd).Nodup →
      (∀ m ∈ acc.maximal_common_subgraphs, (m.map Prod.snd).Nodup) →
      ∀ m ∈ (graph_matcher fuel graph1 graph2 ep nm nall assignments er ea
          nr acc).maximal_common_subgraphs,
        (m.map Prod.snd).Nodup := by
  intro fuel
  induction fuel with
  | zero =>
    intro assignments er ea nr acc hvals hacc m hm
    rw [graph_matcher] at hm
    exact hacc m hm
  | succ fuel ih =>
    intro assignments er ea nr acc hvals hacc m hm
    rw [graph_matcher] at hm
    rcases htodo : (nm.map Prod.fst).filter (fun x => decide (x ∉ assignments.map Prod.fst))
      with _ | ⟨g1node, rest⟩
    · rw [htodo] at hm
      simp only [] at hm
      split at hm
      · rcases add_as_maximal_subs acc assignments er ea nr m hm with h | h
        · exact hacc m h
        · rw [h, filter_non_null_map_snd]
          exact hvals
      · exact hacc m hm
    · rw [htodo] at hm
      simp only [] at hm
      have hvals_none : ((assignments ++ [(g1node, none)]).filterMap Prod.snd).Nodup := by
        rw [List.filterMap_append]
        simpa using hvals
      have hcl : ∀ (cands : List V) (acc' : MatchAcc V),
          (∀ x ∈ cands, (some x : Option V) ∉ assignments.map Prod.snd) →
          (∀ m' ∈ acc'.maximal_common_subgraphs, (m'.map Prod.snd).Nodup) →
          ∀ m' ∈ (candidate_loop
              (fun a e1 e2 n acc'' =>
                graph_matcher fuel graph1 graph2 ep nm nall a e1 e2 n acc'')
              graph2 ep assignments g1node
              (edges_to_subgraph_directed graph1 assignments g1node)
              er ea nr cands acc').maximal_common_subgraphs,
            (m'.map Prod.snd).Nodup := by
        intro cands
        induction cands with
        | nil =>
          intro acc' _ hacc' m' hm'
          rw [candidate_loop] at hm'
          exact hacc' m' hm'
        | cons g2node restc ihc =>
          intro acc' hmem hacc' m' hm'
          rw [candidate_loop] at hm'
          refine ihc _ (fun x hx => hmem x (List.mem_cons_of_mem _ hx)) ?_ m' hm'
          intro m'' hm''
          split at hm''
          · exact hacc' m'' hm''
          · refine ih (assignments ++ [(g1node, some g2node)]) _ _ nr acc' ?_ hacc' m'' hm''
            rw [List.filterMap_append]
            simp only [List.filterMap_cons, List.filterMap_nil]
            rw [List.nodup_append]
            refine ⟨hvals, List.nodup_singleton g2node, ?_⟩
            intro x hx hax
            rw [List.mem_singleton] at hax
            rcases List.mem_filterMap.mp hx with ⟨kv, hkv, hkv2⟩
            refine hmem g2node (List.mem_cons_self _ _) ?_
            have hkv3 : kv.2 = some g2node := by rw [hkv2, hax]
            rw [← hkv3]
            exact List.mem_map_of_mem Prod.snd hkv
      split at hm
      · exact ih (assignments ++ [(g1node, none)]) er ea (nr + 1) acc hvals_none hacc m hm
      · have hcands : ∀ x ∈ (lookup_matching nm g1node).filter
            (fun x => decide ((some x : Option V) ∉ assignments.map Prod.snd)),
            (some x : Option V) ∉ assignments.map Prod.snd := by
          intro x hx
          have := (List.mem_filter.mp hx).2
          simpa using this
        split at hm
        · exact ih (assignments ++ [(g1node, none)]) er ea (nr + 1) _ hvals_none
            (hcl _ acc hcands hacc) m hm
        · exact hcl _ acc hcands hacc m hm

theorem count_edges_spec {V : Type} [DecidableEq V] (graph2 : DiGraph V)
    (ep : V → V → V → V → Bool) (assignments : List (V × Option V)) (g2node : V) :
    ∀ (edges : List (V × V)) (er ea : Nat),
      count_edges graph2 ep assignments g2node edges er ea
        = (er + (edges.filter
              (fun e => !(edge_compatible graph2 ep assignments g2node e))).length,
           ea + (edges.filter
              (fun e => edge_compatible graph2 ep assignments g2node e)).length) := by
  intro edges
  induction edges with
  | nil => intro er ea; simp [count_edges]
  | cons e t ih =>
    intro er ea
    by_cases hc : edge_compatible graph2 ep assignments g2node e = true
    · have hstep : count_edges graph2 ep assignments g2node (e :: t) er ea
          = count_edges graph2 ep assignments g2node t er (ea + 1) := by
        simp [count_edges, List.foldl_cons, hc]
      rw [hstep, ih]
      simp [List.filter_cons, hc]
      omega
    · have hstep : count_edges graph2 ep assignments g2node (e :: t) er ea
          = count_edges graph2 ep assignments g2node t (er + 1) ea := by
        simp [count_edges, List.foldl_cons, hc]
      rw [hstep, ih]
      simp [List.filter_cons, hc]
      omega

/-- C4: MCS soundness.  (1) Every node-assignment map returned by
`mcgregor` is injective: candidates already used as values are filtered
out before assignment, so the non-null values stay duplicate-free, and the
recorded maps are the non-null parts of such assignments.  (2) The
edge-count loop of `graph_matcher` counts a possible g1 edge as added
exactly when the corresponding g2 edge (under the tentative assignment)
exists and the edge predicate accepts it (`edge_compatible`), and counts
it toward `edges_removed` otherwise. -/
theorem c4_mcs_soundness {V : Type} [DecidableEq V] (graph1 graph2 : DiGraph V)
    (node_comparison : V → V → Bool) (edge_comparison : V → V → V → V → Bool) :
    (∀ m ∈ (mcgregor graph1 graph2 node_comparison edge_comparison).maximal_common_subgraphs,
      ∀ p ∈ m, ∀ q ∈ m, p.2 = q.2 → p.1 = q.1)
    ∧ ∀ (assignments : List (V × Option V)) (g2node : V) (edges : List (V × V)) (er ea : Nat),
        count_edges (big_graph graph1 graph2) edge_comparison assignments g2node edges er ea
          = (er + (edges.filter (fun e => !(edge_compatible (big_graph graph1 graph2)
                edge_comparison assignments g2node e))).length,
             ea + (edges.filter (fun e => edge_compatible (big_graph graph1 graph2)
                edge_comparison assignments g2node e)).length) := by
  constructor
  · intro m hm p hp q hq hpq
    have hnodup : (m.map Prod.snd).Nodup := by
      have hmc : m ∈ (mcgregor graph1 graph2 node_comparison
          edge_comparison).maximal_common_subgraphs := hm
      rw [mcgregor] at hmc
      dsimp only at hmc
      split at hmc
      · simp at hmc
      · exact graph_matcher_snd_nodup (small_graph graph1 graph2) (big_graph graph1 graph2)
          edge_comparison _ true _ [] 0 0 0 ⟨none, none, 0, []⟩ (by simp)
          (by intro m' hm'; simp at hm') m hmc
    have := List.inj_on_of_nodup_map hnodup hp hq hpq
    rw [this]
  · exact fun a g e er ea => count_edges_spec (big_graph graph1 graph2) edge_comparison a g e er ea

/-- C4 witness: the soundness theorem applied to a concrete pair of graphs;
the unique maximal matching is injective and the edge-count identity holds
at a concrete input. -/
theorem c4_witness :
    ((0, 10) : Nat × Nat).1 = ((0, 10) : Nat × Nat).1
    ∧ count_edges (big_graph (⟨[0, 1], [(0, 1)]⟩ : DiGraph Nat) ⟨[10, 11, 12], [(10, 11)]⟩)
        (fun _ _ _ _ => true) [] 10 [(0, 1)] 0 0
        = (0 + (([(0, 1)] : List (Nat × Nat)).filter
              (fun e => !(edge_compatible (big_graph (⟨[0, 1], [(0, 1)]⟩ : DiGraph Nat)
                ⟨[10, 11, 12], [(10, 11)]⟩) (fun _ _ _ _ => true) [] 10 e))).length,
           0 + (([(0, 1)] : List (Nat × Nat)).filter
              (fun e => edge_compatible (big_graph (⟨[0, 1], [(0, 1)]⟩ : DiGraph Nat)
                ⟨[10, 11, 12], [(10, 11)]⟩) (fun _ _ _ _ => true) [] 10 e)).length) :=
  ⟨(c4_mcs_soundness (⟨[0, 1], [(0, 1)]⟩ : DiGraph Nat) ⟨[10, 11, 12], [(10, 11)]⟩
      (fun _ _ => true) (fun _ _ _ _ => true)).1
      [(0, 10), (1, 11)] (by decide) (0, 10) (by decide) (0, 10) (by decide) rfl,
   (c4_mcs_soundness (⟨[0, 1], [(0, 1)]⟩ : DiGraph Nat) ⟨[10, 11, 12], [(10, 11)]⟩
      (fun _ _ => true) (fun _ _ _ _ => true)).2 [] 10 [(0, 1)] 0 0⟩

end McG

namespace McG

theorem node_matches_keys {V : Type} (small big : DiGraph V) (np : V → V → Bool) :
    (node_matches_of small big np).map Prod.fst
      = small.nodes.filter (fun s => !((big.nodes.filter (fun b => np s b)).isEmpty)) := by
  rw [node_matches_of]
  generalize small.nodes = l
  induction l with
  | nil => rfl
  | cons s t ih =>
    simp only [List.filterMap_cons, List.filter_cons]
    cases he : (List.filter (fun b => np s b) big.nodes).isEmpty with
    | true => simp [ih, -List.filter_eq_nil_iff]
    | false => simp [ih, -List.filter_eq_nil_iff]

theorem add_as_maximal_sizes {V : Type} (acc : MatchAcc V) (assignments : List (V × Option V))
    (er ea nr K : Nat)
    (hacc : ∀ m ∈ acc.maximal_common_subgraphs,
      acc.maximal_nodes_removed = some (K - m.length))
    (hlen : (filter_non_null assignments).length = K - nr)
    (hnr : nr ≤ K)
    (hgate : gtB nr acc.maximal_nodes_removed = false) :
    ∀ m ∈ (add_as_maximal acc assignments er ea nr).maximal_common_subgraphs,
      (add_as_maximal acc assignments er ea nr).maximal_nodes_removed
        = some (K - m.length) := by
  intro m hm
  have hKn : K - (K - nr) = nr := by omega
  unfold add_as_maximal at hm ⊢
  by_cases hA : (decide (acc.edges_in_maximal_subgraph < ea)
      || ltB nr acc.maximal_nodes_removed) = true
  · rw [if_pos hA] at hm ⊢
    rw [subs_update_mnr, subs_update_mer] at hm
    dsimp only at hm
    rw [List.mem_singleton] at hm
    subst hm
    rw [mnr_update_mnr, mnr_update_mer]
    dsimp only
    rw [hlen, hKn]
    by_cases hC : ltB nr acc.maximal_nodes_removed = true
    · rw [if_pos hC]
    · rw [if_neg hC]
      rcases hmn : acc.maximal_nodes_removed with _ | k
      · rw [hmn] at hC
        simp [ltB] at hC
      · rw [hmn] at hC hgate
        simp only [ltB, decide_eq_true_eq] at hC
        simp only [gtB, decide_eq_false_iff_not] at hgate
        have : k = nr := by omega
        rw [this]
  · rw [if_neg hA] at hm ⊢
    have hltB : ltB nr acc.maximal_nodes_removed = false := by
      cases hx : ltB nr acc.maximal_nodes_removed
      · rfl
      · exact absurd (by rw [hx]; simp : (decide (acc.edges_in_maximal_subgraph < ea)
          || ltB nr acc.maximal_nodes_removed) = true) hA
    by_cases hB : (decide (ea = acc.edges_in_maximal_subgraph)
        && decide (acc.maximal_nodes_removed = some nr)) = true
    · rw [if_pos hB] at hm ⊢
      rw [subs_update_mnr, subs_update_mer] at hm
      dsimp only at hm
      rw [mnr_update_mnr, mnr_update_mer]
      dsimp only
      have hmn : acc.maximal_nodes_removed = some nr := by
        rw [Bool.and_eq_true] at hB
        exact of_decide_eq_true hB.2
      rw [hmn]
      rw [ite_self]
      rcases List.mem_append.mp hm with h | h
      · rw [← hmn]
        exact hacc m h
      · rw [List.mem_singleton] at h
        subst h
        rw [hlen, hKn]
    · rw [if_neg hB] at hm ⊢
      rw [subs_update_mnr, subs_update_mer] at hm
      rw [mnr_update_mnr, mnr_update_mer]
      rw [hltB]
      simp only [Bool.false_eq_true, if_false]
      exact hacc m hm

theorem graph_matcher_succ_nil {V : Type} [DecidableEq V] (fuel : Nat)
    (graph1 graph2 : DiGraph V) (ep : V → V → V → V → Bool)
    (nm : List (V × List V)) (nall : Bool) (assignments : List (V × Option V))
    (er ea nr : Nat) (acc : MatchAcc V)
    (h : (nm.map Prod.fst).filter (fun x => decide (x ∉ assignments.map Prod.fst)) = []) :
    graph_matcher (fuel + 1) graph1 graph2 ep nm nall assignments er ea nr acc
      = if (!(gtB er acc.maximal_edges_removed)
            && !(decide (ea < acc.edges_in_maximal_subgraph))
            && !(gtB nr acc.maximal_nodes_removed)) = true then
          add_as_maximal acc assignments er ea nr
        else acc := by
  rw [graph_matcher, h]

theorem graph_matcher_succ_cons {V : Type} [DecidableEq V] (fuel : Nat)
    (graph1 graph2 : DiGraph V) (ep : V → V → V → V → Bool)
    (nm : List (V × List V)) (nall : Bool) (assignments : List (V × Option V))
    (er ea nr : Nat) (acc : MatchAcc V) (g1node : V) (rest : List V)
    (h : (nm.map Prod.fst).filter (fun x => decide (x ∉ assignments.map Prod.fst))
        = g1node :: rest) :
    graph_matcher (fuel + 1) graph1 graph2 ep nm nall assignments er ea nr acc
      = if ((lookup_matching nm g1node).filter
            (fun x => decide (some x ∉ assignments.map Prod.snd))).isEmpty = true then
          graph_matcher fuel graph1 graph2 ep nm nall (assignments ++ [(g1node, none)])
            er ea (nr + 1) acc
        else if (nall && ltB nr (candidate_loop
              (fun a e1 e2 n acc' => graph_matcher fuel graph1 graph2 ep nm nall a e1 e2 n acc')
              graph2 ep assignments g1node
              (edges_to_subgraph_directed graph1 assignments g1node) er ea nr
              ((lookup_matching nm g1node).filter
                (fun x => decide (some x ∉ assignments.map Prod.snd)))
              acc).maximal_nodes_removed) = true then
          graph_matcher fuel graph1 graph2 ep nm nall (assignments ++ [(g1node, none)])
            er ea (nr + 1) (candidate_loop
              (fun a e1 e2 n acc' => graph_matcher fuel graph1 graph2 ep nm nall a e1 e2 n acc')
              graph2 ep assignments g1node
              (edges_to_subgraph_directed graph1 assignments g1node) er ea nr
              ((lookup_matching nm g1node).filter
                (fun x => decide (some x ∉ assignments.map Prod.snd)))
              acc)
        else candidate_loop
              (fun a e1 e2 n acc' => graph_matcher fuel graph1 graph2 ep nm nall a e1 e2 n acc')
              graph2 ep assignments g1node
              (edges_to_subgraph_directed graph1 assignments g1node) er ea nr
              ((lookup_matching nm g1node).filter
                (fun x => decide (some x ∉ assignments.map Prod.snd)))
              acc := by
  rw [graph_matcher, h]

/-- Size accounting through the search: every recorded matching's size
differs from the number of candidate-having g1 nodes exactly by the final
`maximal_nodes_removed` bound. -/
theorem graph_matcher_sizes {V : Type} [DecidableEq V] (graph1 graph2 : DiGraph V)
    (ep : V → V → V → V → Bool) (nm : List (V × List V)) (nall : Bool)
    (hkeys : (nm.map Prod.fst).Nodup) :
    ∀ (fuel : Nat) (assignments : List (V × Option V)) (er ea nr : Nat) (acc : MatchAcc V),
      (assignments.map Prod.fst).Nodup →
      (∀ k ∈ assignments.map Prod.fst, k ∈ nm.map Prod.fst) →
      nr = (assignments.filter (fun kv => kv.2.isNone)).length →
      (∀ m ∈ acc.maximal_common_subgraphs,
        acc.maximal_nodes_removed = some (nm.length - m.length)) →
      ∀ m ∈ (graph_matcher fuel graph1 graph2 ep nm nall assignments er ea
          nr acc).maximal_common_subgraphs,
        (graph_matcher fuel graph1 graph2 ep nm nall assignments er ea
          nr acc).maximal_nodes_removed = some (nm.length - m.length) := by
  intro fuel
  induction fuel with
  | zero =>
    intro assignments er ea nr acc h1 h2 h3 hacc m hm
    rw [graph_matcher] at hm ⊢
    exact hacc m hm
  | succ fuel ih =>
    intro assignments er ea nr acc h1 h2 h3 hacc m hm
    rcases htodo : (nm.map Prod.fst).filter (fun x => decide (x ∉ assignments.map Prod.fst))
      with _ | ⟨g1node, rest⟩
    · rw [graph_matcher_succ_nil fuel graph1 graph2 ep nm nall assignments er ea nr acc
        htodo] at hm ⊢
      have msub1 : assignments.map Prod.fst ⊆ nm.map Prod.fst := fun a ha => h2 a ha
      have msub2 : nm.map Prod.fst ⊆ assignments.map Prod.fst := by
        intro a ha
        by_contra hna
        have hmem : a ∈ (nm.map Prod.fst).filter
            (fun x => decide (x ∉ assignments.map Prod.fst)) := by
          rw [List.mem_filter]
          exact ⟨ha, by simpa using hna⟩
        rw [htodo] at hmem
        simp at hmem
      have l1 := (h1.subperm msub1).length_le
      have l2 := (hkeys.subperm msub2).length_le
      rw [List.length_map, List.length_map] at l1 l2
      have keylen : assignments.length = nm.length := by omega
      have hflt := List.length_filter_le (fun kv : V × Option V => kv.2.isNone) assignments
      have hlen : (filter_non_null assignments).length = nm.length - nr := by
        rw [filter_non_null_length, ← h3, keylen]
      have hnrle : nr ≤ nm.length := by omega
      split at hm
      · next hNM =>
        rw [if_pos hNM]
        have hgate : gtB nr acc.maximal_nodes_removed = false := by
          rw [Bool.and_eq_true] at hNM
          have := hNM.2
          cases hx : gtB nr acc.maximal_nodes_removed
          · rfl
          · rw [hx] at this
            simp at this
        exact add_as_maximal_sizes acc assignments er ea nr nm.length hacc hlen hnrle hgate m hm
      · next hNM =>
        rw [if_neg hNM]
        exact hacc m hm
    · rw [graph_matcher_succ_cons fuel graph1 graph2 ep nm nall assignments er ea nr acc
        g1node rest htodo] at hm ⊢
      have hg1 : g1node ∈ (nm.map Prod.fst).filter
          (fun x => decide (x ∉ assignments.map Prod.fst)) := by
        rw [htodo]
        exact List.mem_cons_self _ _
      rw [List.mem_filter] at hg1
      obtain ⟨hg1nm, hg1notkey⟩ := hg1
      have hg1notkey' : g1node ∉ assignments.map Prod.fst := by simpa using hg1notkey
      have hext_none : ((assignments ++ [(g1node, none)]).map Prod.fst).Nodup ∧
          (∀ k ∈ (assignments ++ [(g1node, none)]).map Prod.fst, k ∈ nm.map Prod.fst) ∧
          nr + 1 = ((assignments ++ [(g1node, none)]).filter
            (fun kv : V × Option V => kv.2.isNone)).length := by
        refine ⟨?_, ?_, ?_⟩
        · rw [List.map_append]
          rw [List.nodup_append]
          refine ⟨h1, by simp, ?_⟩
          intro x hx hx2
          simp only [List.map_cons, List.map_nil, List.mem_singleton] at hx2
          subst hx2
          exact hg1notkey' hx
        · intro k hk
          rw [List.map_append] at hk
          rcases List.mem_append.mp hk with h | h
          · exact h2 k h
          · simp only [List.map_cons, List.map_nil, List.mem_singleton] at h
            subst h
            exact hg1nm
        · rw [List.filter_append]
          simp [h3]
      have hext_some : ∀ x : V, ((assignments ++ [(g1node, some x)]).map Prod.fst).Nodup ∧
          (∀ k ∈ (assignments ++ [(g1node, some x)]).map Prod.fst, k ∈ nm.map Prod.fst) ∧
          nr = ((assignments ++ [(g1node, some x)]).filter
            (fun kv : V × Option V => kv.2.isNone)).length := by
        intro x
        refine ⟨?_, ?_, ?_⟩
        · rw [List.map_append]
          rw [List.nodup_append]
          refine ⟨h1, by simp, ?_⟩
          intro y hy hy2
          simp only [List.map_cons, List.map_nil, List.mem_singleton] at hy2
          subst hy2
          exact hg1notkey' hy
        · intro k hk
          rw [List.map_append] at hk
          rcases List.mem_append.mp hk with h | h
          · exact h2 k h
          · simp only [List.map_cons, List.map_nil, List.mem_singleton] at h
            subst h
            exact hg1nm
        · rw [List.filter_append]
          simp [h3]
      have hcl : ∀ (cands : List V) (acc' : MatchAcc V),
          (∀ m' ∈ acc'.maximal_common_subgraphs,
            acc'.maximal_nodes_removed = some (nm.length - m'.length)) →
          ∀ m' ∈ (candidate_loop
              (fun a e1 e2 n acc'' =>
                graph_matcher fuel graph1 graph2 ep nm nall a e1 e2 n acc'')
              graph2 ep assignments g1node
              (edges_to_subgraph_directed graph1 assignments g1node)
              er ea nr cands acc').maximal_common_subgraphs,
            (candidate_loop
              (fun a e1 e2 n acc'' =>
                graph_matcher fuel graph1 graph2 ep nm nall a e1 e2 n acc'')
              graph2 ep assignments g1node
              (edges_to_subgraph_directed graph1 assignments g1node)
              er ea nr cands acc').maximal_nodes_removed = some (nm.length - m'.length) := by
        intro cands
        induction cands with
        | nil =>
          intro acc' hacc' m' hm'
          rw [candidate_loop] at hm' ⊢
          exact hacc' m' hm'
        | cons g2node restc ihc =>
          intro acc' hacc' m' hm'
          rw [candidate_loop] at hm' ⊢
          refine ihc _ ?_ m' hm'
          by_cases hgt : gtB (count_edges graph2 ep assignments g2node
              (edges_to_subgraph_directed graph1 assignments g1node) er ea).1
              acc'.maximal_edges_removed = true
          · rw [if_pos hgt]
            exact hacc'
          · rw [if_neg hgt]
            obtain ⟨ha1, ha2, ha3⟩ := hext_some g2node
            exact ih (assignments ++ [(g1node, some g2node)]) _ _ nr acc' ha1 ha2 ha3 hacc'
      split at hm
      · next hie =>
        rw [if_pos hie]
        obtain ⟨ha1, ha2, ha3⟩ := hext_none
        exact ih (assignments ++ [(g1node, none)]) er ea (nr + 1) acc ha1 ha2 ha3 hacc m hm
      · next hie =>
        rw [if_neg hie]
        split at hm
        · next hcond =>
          rw [if_pos hcond]
          obtain ⟨ha1, ha2, ha3⟩ := hext_none
          exact ih (assignments ++ [(g1node, none)]) er ea (nr + 1) _ ha1 ha2 ha3
            (hcl _ acc hacc) m hm
        · next hcond =>
          rw [if_neg hcond]
          exact hcl _ acc hacc m hm

/-- The size accounting lifted to the top-level `mcgregor`: every returned
matching's size differs from the number of candidate-having small-graph
nodes (the keys of `node_matches`) exactly by the reported
`maximal_nodes_removed`. -/
theorem mcgregor_subs_mnr {V : Type} [DecidableEq V] (graph1 graph2 : DiGraph V)
    (np : V → V → Bool) (ep : V → V → V → V → Bool)
    (hkeys : ((node_matches_of (small_graph graph1 graph2) (big_graph graph1 graph2)
      np).map Prod.fst).Nodup) :
    ∀ m ∈ (mcgregor graph1 graph2 np ep).maximal_common_subgraphs,
      (mcgregor graph1 graph2 np ep).maximal_nodes_removed
        = some ((node_matches_of (small_graph graph1 graph2) (big_graph graph1 graph2)
            np).length - m.length) := by
  intro m hm
  have hsubs : (mcgregor graph1 graph2 np ep).maximal_common_subgraphs
      = (if (node_matches_of (small_graph graph1 graph2) (big_graph graph1 graph2)
            np).isEmpty = true
         then (⟨none, none, 0, []⟩ : MatchAcc V)
         else graph_matcher
           ((node_matches_of (small_graph graph1 graph2) (big_graph graph1 graph2)
             np).length + 1)
           (small_graph graph1 graph2) (big_graph graph1 graph2) ep
           (node_matches_of (small_graph graph1 graph2) (big_graph graph1 graph2) np) true
           [] 0 0 0 ⟨none, none, 0, []⟩).maximal_common_subgraphs := rfl
  have hmnr : (mcgregor graph1 graph2 np ep).maximal_nodes_removed
      = (if (node_matches_of (small_graph graph1 graph2) (big_graph graph1 graph2)
            np).isEmpty = true
         then (⟨none, none, 0, []⟩ : MatchAcc V)
         else graph_matcher
           ((node_matches_of (small_graph graph1 graph2) (big_graph graph1 graph2)
             np).length + 1)
           (small_graph graph1 graph2) (big_graph graph1 graph2) ep
           (node_matches_of (small_graph graph1 graph2) (big_graph graph1 graph2) np) true
           [] 0 0 0 ⟨none, none, 0, []⟩).maximal_nodes_removed := rfl
  rw [hsubs] at hm
  rw [hmnr]
  by_cases hne : (node_matches_of (small_graph graph1 graph2) (big_graph graph1 graph2)
      np).isEmpty = true
  · rw [if_pos hne] at hm
    simp at hm
  · rw [if_neg hne] at hm ⊢
    exact graph_matcher_sizes (small_graph graph1 graph2) (big_graph graph1 graph2) ep
      (node_matches_of (small_graph graph1 graph2) (big_graph graph1 graph2) np) true hkeys
      ((node_matches_of (small_graph graph1 graph2) (big_graph graph1 graph2) np).length + 1)
      [] 0 0 0 ⟨none, none, 0, []⟩ (by simp) (by simp) rfl
      (by intro m' hm'; simp at hm') m hm

/-- C7 (corrected): a small-graph node whose candidate set is empty never
receives a key in `node_matches`, so it is dropped from the search rather
than forcibly assigned a null match; consequently the size accounting that
holds is against the number of candidate-having nodes (the keys of
`node_matches`), not against the small graph's node count: for every
returned matching `m`, `maximal_nodes_removed` equals the number of keys
minus the size of `m`. -/
theorem c7_empty_candidates_dropped_size_accounting {V : Type} [DecidableEq V]
    (graph1 graph2 : DiGraph V) (np : V → V → Bool) (ep : V → V → V → V → Bool)
    (hkeys : ((node_matches_of (small_graph graph1 graph2) (big_graph graph1 graph2)
      np).map Prod.fst).Nodup) :
    (∀ u, ((big_graph graph1 graph2).nodes.filter (fun b => np u b)).isEmpty = true →
      u ∉ (mcgregor graph1 graph2 np ep).node_matching.map Prod.fst) ∧
    (∀ m ∈ (mcgregor graph1 graph2 np ep).maximal_common_subgraphs,
      (mcgregor graph1 graph2 np ep).maximal_nodes_removed
        = some ((mcgregor graph1 graph2 np ep).node_matching.length - m.length)) := by
  have hnm : (mcgregor graph1 graph2 np ep).node_matching
      = node_matches_of (small_graph graph1 graph2) (big_graph graph1 graph2) np := rfl
  constructor
  · intro u hu hmem
    rw [hnm, node_matches_keys] at hmem
    rw [List.mem_filter] at hmem
    rw [hu] at hmem
    simp at hmem
  · intro m hm
    rw [hnm]
    exact mcgregor_subs_mnr graph1 graph2 np ep hkeys m hm

/-- C7 witness: the corrected accounting at a concrete instance in which
small-graph node `1` has no compatible big-graph node: `1` is absent from
the candidate keys, and the returned matching sizes satisfy the
keys-based accounting. -/
theorem c7_witness :
    ((node_matches_of (small_graph (⟨[0, 1], []⟩ : DiGraph Nat) ⟨[10, 11, 12], []⟩)
        (big_graph (⟨[0, 1], []⟩ : DiGraph Nat) ⟨[10, 11, 12], []⟩)
        (fun s b => decide (s = 0 ∧ b = 10))).map Prod.fst).Nodup ∧
    (1 : Nat) ∉ (mcgregor (⟨[0, 1], []⟩ : DiGraph Nat) ⟨[10, 11, 12], []⟩
        (fun s b => decide (s = 0 ∧ b = 10))
        (fun _ _ _ _ => true)).node_matching.map Prod.fst ∧
    ∀ m ∈ (mcgregor (⟨[0, 1], []⟩ : DiGraph Nat) ⟨[10, 11, 12], []⟩
        (fun s b => decide (s = 0 ∧ b = 10))
        (fun _ _ _ _ => true)).maximal_common_subgraphs,
      (mcgregor (⟨[0, 1], []⟩ : DiGraph Nat) ⟨[10, 11, 12], []⟩
        (fun s b => decide (s = 0 ∧ b = 10))
        (fun _ _ _ _ => true)).maximal_nodes_removed
        = some ((mcgregor (⟨[0, 1], []⟩ : DiGraph Nat) ⟨[10, 11, 12], []⟩
            (fun s b => decide (s = 0 ∧ b = 10))
            (fun _ _ _ _ => true)).node_matching.length - m.length) := by
  refine ⟨by decide, ?_, ?_⟩
  · exact (c7_empty_candidates_dropped_size_accounting (⟨[0, 1], []⟩ : DiGraph Nat)
      ⟨[10, 11, 12], []⟩ (fun s b => decide (s = 0 ∧ b = 10)) (fun _ _ _ _ => true)
      (by decide)).1 1 (by decide)
  · exact (c7_empty_candidates_dropped_size_accounting (⟨[0, 1], []⟩ : DiGraph Nat)
      ⟨[10, 11, 12], []⟩ (fun s b => decide (s = 0 ∧ b = 10)) (fun _ _ _ _ => true)
      (by decide)).2

/-- C7 counterexample: small-graph node `1` has an empty candidate set, the
single returned matching has size 1 while the small graph has 2 nodes, yet
the reported `maximal_nodes_removed` is 0, refuting the claim that the
small graph's node count minus the matching's size equals
`maximal_nodes_removed` (node `1` was dropped from the search, not counted
as removed). -/
theorem c7_dropped_node_not_counted :
    (mcgregor (⟨[0, 1], []⟩ : DiGraph Nat) ⟨[10, 11, 12], []⟩
        (fun s b => decide (s = 0 ∧ b = 10))
        (fun _ _ _ _ => true)).maximal_common_subgraphs = [[(0, 10)]] ∧
    (mcgregor (⟨[0, 1], []⟩ : DiGraph Nat) ⟨[10, 11, 12], []⟩
        (fun s b => decide (s = 0 ∧ b = 10))
        (fun _ _ _ _ => true)).maximal_nodes_removed = some 0 ∧
    ((big_graph (⟨[0, 1], []⟩ : DiGraph Nat) ⟨[10, 11, 12], []⟩).nodes.filter
        (fun b => decide ((1 : Nat) = 0 ∧ b = 10))).isEmpty = true ∧
    (small_graph (⟨[0, 1], []⟩ : DiGraph Nat) ⟨[10, 11, 12], []⟩).nodes.length - 1 ≠ 0 := by
  decide

end McG

namespace BirthMerge

theorem insort_mem {α : Type} (x y : List α) (q : List (List α)) :
    y ∈ insort x q ↔ y = x ∨ y ∈ q := by
  induction q with
  | nil => simp [insort]
  | cons z t ih =>
    rw [insort]
    by_cases h : z.length ≤ x.length
    · rw [if_pos h]
      rw [List.mem_cons, ih, List.mem_cons]
      tauto
    · rw [if_neg h]
      rw [List.mem_cons, List.mem_cons]

theorem insort_sorted {α : Type} (x : List α) (q : List (List α))
    (h : q.Pairwise (fun a b => a.length ≤ b.length)) :
    (insort x q).Pairwise (fun a b => a.length ≤ b.length) := by
  induction q with
  | nil => simp [insort]
  | cons z t ih =>
    rw [List.pairwise_cons] at h
    obtain ⟨hz, ht⟩ := h
    rw [insort]
    by_cases hle : z.length ≤ x.length
    · rw [if_pos hle]
      rw [List.pairwise_cons]
      refine ⟨?_, ih ht⟩
      intro y hy
      rw [insort_mem] at hy
      rcases hy with rfl | hy
      · exact hle
      · exact hz y hy
    · rw [if_neg hle]
      rw [List.pairwise_cons]
      refine ⟨?_, List.pairwise_cons.mpr ⟨hz, ht⟩⟩
      intro y hy
      rw [List.mem_cons] at hy
      rcases hy with rfl | hy
      · omega
      · have := hz y hy
        omega

theorem twig_queue_sorted_aux {α : Type} (twigs : List (List α)) :
    ∀ acc : List (List α), acc.Pairwise (fun a b => a.length ≤ b.length) →
    (twigs.foldl (fun acc x => insort x acc) acc).Pairwise
      (fun a b => a.length ≤ b.length) := by
  induction twigs with
  | nil => intro acc hacc; exact hacc
  | cons x t ih =>
    intro acc hacc
    exact ih _ (insort_sorted x acc hacc)

theorem twig_queue_sorted {α : Type} (twigs : List (List α)) :
    (twig_queue twigs).Pairwise (fun a b => a.length ≤ b.length) :=
  twig_queue_sorted_aux twigs [] List.Pairwise.nil

theorem sorted_getLast_max {α : Type} (q : List (List α)) (t : List α)
    (h : q.Pairwise (fun a b => a.length ≤ b.length)) (hl : q.getLast? = some t) :
    ∀ u ∈ q, u.length ≤ t.length := by
  induction q with
  | nil => simp at hl
  | cons x s ih =>
    rw [List.pairwise_cons] at h
    obtain ⟨hx, hs⟩ := h
    cases s with
    | nil =>
      rw [List.getLast?_singleton] at hl
      have hxt : x = t := by
        injection hl
      subst hxt
      intro u hu
      rw [List.mem_cons] at hu
      rcases hu with rfl | hu
      · exact le_refl _
      · simp at hu
    | cons y s2 =>
      rw [List.getLast?_cons_cons] at hl
      intro u hu
      rw [List.mem_cons] at hu
      rcases hu with rfl | hu
      · exact hx t (List.mem_of_getLast?_eq_some hl)
      · exact ih hs hl u hu

/-- C2 (corrected): the work queue is sorted ascending by twig size, but
`pop()` removes the LAST element, so each pop yields a twig of maximal
(not minimal) size among those remaining; smaller twigs are processed
later, and the remaining queue stays sorted ascending. -/
theorem c2_pop_yields_largest {α : Type} (twigs : List (List α)) (t : List α)
    (rest : List (List α)) (h : queue_pop (twig_queue twigs) = some (t, rest)) :
    (∀ u ∈ twig_queue twigs, u.length ≤ t.length) ∧
    rest.Pairwise (fun a b => a.length ≤ b.length) ∧
    (twig_queue twigs).Pairwise (fun a b => a.length ≤ b.length) := by
  have hs := twig_queue_sorted twigs
  rw [queue_pop] at h
  cases hq : (twig_queue twigs).getLast? with
  | none =>
    rw [hq] at h
    exact absurd h (by simp)
  | some t2 =>
    rw [hq] at h
    rw [Option.some.injEq, Prod.mk.injEq] at h
    obtain ⟨ht, hrest⟩ := h
    subst ht
    subst hrest
    exact ⟨sorted_getLast_max _ _ hs hq, hs.sublist (List.dropLast_sublist _), hs⟩

/-- C2 witness: the corrected statement applied to the concrete queue built
from a 1-element twig and a 2-element twig: the popped twig `[1, 2]` is
maximal and the remaining queue `[[0]]` is sorted. -/
theorem c2_witness :
    (∀ u ∈ twig_queue [[(0 : Nat)], [1, 2]], u.length ≤ ([1, 2] : List Nat).length) ∧
    ([[(0 : Nat)]] : List (List Nat)).Pairwise (fun a b => a.length ≤ b.length) ∧
    (twig_queue [[(0 : Nat)], [1, 2]]).Pairwise (fun a b => a.length ≤ b.length) :=
  c2_pop_yields_largest [[(0 : Nat)], [1, 2]] [1, 2] [[0]] (by decide)

/-- C2 counterexample: from the queue built of twigs `[0]` (size 1, first)
and `[1, 2]` (size 2, second), `pop()` yields the size-2 twig while the
size-1 twig remains, refuting smallest-first; and from two equal-size
twigs `[1]` then `[2]`, `pop()` yields the one inserted LAST, refuting
stable insertion-order processing. -/
theorem c2_pop_not_smallest :
    queue_pop (twig_queue [[(0 : Nat)], [1, 2]]) = some ([1, 2], [[0]]) ∧
    ¬(([1, 2] : List Nat).length ≤ ([0] : List Nat).length) ∧
    queue_pop (twig_queue [[(1 : Nat)], [2]]) = some ([2], [[1]]) := by
  decide

end BirthMerge

namespace BirthMerge

/-- C1 (corrected): when the pre-flight relation-merge check fails for a
pair, the graph is indeed left unchanged with respect to that pair — but
the `except ValueError` handler executes `break`, not `continue`, so the
WHOLE per-match loop is abandoned: the graph is returned exactly as it was
and no pair later in match-enumeration order is attempted. -/
theorem c1_preflight_failure_breaks (g : MGraph) (p1 p2 : String)
    (rest : List (String × String)) (h : preflight_ok g p1 p2 = false) :
    processMatch g ((p1, p2) :: rest) = g := by
  rw [processMatch, processPair, h]
  rfl

/-- C1 witness: the break behaviour at the concrete example graph, with the
failing pair first and a mergeable pair after it. -/
theorem c1_witness :
    preflight_ok c1_example_graph "a1" "a2" = false ∧
    processMatch c1_example_graph [("a1", "a2"), ("b1", "b2")] = c1_example_graph :=
  ⟨by decide,
   c1_preflight_failure_breaks c1_example_graph "a1" "a2" [("b1", "b2")] (by decide)⟩

/-- C1 counterexample: on the example graph, the first pair (a1, a2) fails
pre-flight, the second pair (b1, b2) WOULD merge (its processing marks b1
merged), yet processing the whole match leaves the graph untouched and b1
unmerged: pairs later in match-enumeration order are NOT attempted,
refuting the continue-with-the-next-pair part of the claim. -/
theorem c1_break_abandons_rest :
    preflight_ok c1_example_graph "a1" "a2" = false ∧
    (processPair c1_example_graph "b1" "b2").map (fun g2 => isMergedNode g2 "b1")
      = some true ∧
    processMatch c1_example_graph [("a1", "a2"), ("b1", "b2")] = c1_example_graph ∧
    isMergedNode c1_example_graph "b1" = false := by
  decide

end BirthMerge

namespace PJson

theorem asOptStr_optStr (o : Option String) : asOptStr (optStr o) = o := by
  cases o <;> rfl

theorem asOptInt_optInt (o : Option Int) : asOptInt (optInt o) = o := by
  cases o <;> rfl

theorem content_parse_json (c : TwigGraft.Content) :
    content_parse (content_json c) = some c := by
  cases c <;> rfl

theorem getKey_obj_nil (k : String) : getKey (.obj []) k = none := rfl

theorem getKey_obj_cons (k : String) (v : Json) (t : List (String × Json)) (k2 : String) :
    getKey (.obj ((k, v) :: t)) k2 = if k = k2 then some v else getKey (.obj t) k2 := by
  by_cases h : k = k2
  · simp [getKey, List.find?_cons, h]
  · simp [getKey, List.find?_cons, h]

theorem getKey_obj_append (l1 l2 : List (String × Json)) (k : String) :
    getKey (.obj (l1 ++ l2)) k = (getKey (.obj l1) k).or (getKey (.obj l2) k) := by
  induction l1 with
  | nil => simp [getKey_obj_nil]
  | cons a t ih =>
    obtain ⟨k1, v⟩ := a
    rw [List.cons_append, getKey_obj_cons, getKey_obj_cons]
    by_cases h : k1 = k
    · simp [h]
    · simp [h, ih]

theorem getKey_obj_segKey (c : Bool) (k : String) (v : Json) (k2 : String) :
    getKey (.obj (segKey c k v)) k2 = if c && decide (k = k2) then some v else none := by
  cases c
  · simp [segKey, getKey_obj_nil]
  · by_cases h : k = k2 <;> simp [segKey, getKey_obj_cons, getKey_obj_nil, h]

theorem source_pj (s : TwigGraft.Source) : source_parse (source_json s) = some s := by
  simp [source_parse, source_json, getOptStr, getOptInt, getKey_obj_cons, getKey_obj_nil,
    asOptStr_optStr, asOptInt_optInt]

theorem map_asOptStr_optStr (l : List (Option String)) :
    List.map (asOptStr ∘ optStr) l = l := by
  induction l with
  | nil => rfl
  | cons a t ih => simp [Function.comp, asOptStr_optStr, ih]

theorem date_pj (d : TwigGraft.Date) : date_parse (date_json d) = some (date_canon d) := by
  by_cases h : TwigGraft.truthyNotes d.notes = true <;>
    simp [date_parse, date_json, notes_json, notes_parse, date_canon, notes_rt,
      getKey_obj_cons, getKey_obj_append, getKey_obj_segKey, asOptStr_optStr,
      map_asOptStr_optStr, h]

theorem intList_parse_map (l : List Int) : intList_parse (l.map Json.num) = some l := by
  induction l with
  | nil => rfl
  | cons a t ih => simp [intList_parse, ih]

theorem duration_pj (d : TwigGraft.Duration) :
    duration_parse (duration_json d) = some (duration_canon d) := by
  by_cases h : TwigGraft.truthyNotes d.notes = true <;>
    simp [duration_parse, duration_json, notes_json, notes_parse, duration_canon,
      notes_rt, getKey_obj_cons, getKey_obj_append, getKey_obj_segKey,
      intList_parse_map, asOptStr_optStr, map_asOptStr_optStr, h]

theorem location_pj (l : TwigGraft.Location) :
    location_parse (location_json l) = some (location_canon l) := by
  by_cases h : TwigGraft.truthyNotes l.notes = true <;>
    simp [location_parse, location_json, statement_json, notes_json, notes_parse,
      location_canon, notes_rt, getOptStr, getOptInt, getKey_obj_cons,
      getKey_obj_append, getKey_obj_segKey, asOptStr_optStr, asOptInt_optInt,
      map_asOptStr_optStr, h]

theorem parseList_map {α β : Type} (pf : Json → Option β) (f : α → Json) (g : α → β)
    (hpf : ∀ a, pf (f a) = some (g a)) (l : List α) :
    parseList pf (l.map f) = some (l.map g) := by
  induction l with
  | nil => rfl
  | cons a t ih => simp [parseList, hpf, ih]

end PJson

namespace PJson

theorem truthyDates_eq_truthyList (o : Option (List TwigGraft.Date)) :
    TwigGraft.truthyDates o = truthyList o := by
  cases o <;> rfl

set_option maxHeartbeats 3200000 in
theorem fact_pj (f : TwigGraft.Fact) : fact_parse (fact_json f) = some (fact_canon f) := by
  by_cases h1 : TwigGraft.truthyContent f.content = true <;>
  by_cases h2 : truthyList f.age = true <;>
  by_cases h3 : truthyList f.date = true <;>
  by_cases h4 : truthyList f.locations = true <;>
  by_cases h5 : truthyList f.sources = true <;>
  by_cases h6 : TwigGraft.truthyNotes f.notes = true <;>
    simp [fact_parse, fact_json, fact_canon, conclusion_json, statement_json,
      notes_json, arrField, getContent, getOptStr, notes_parse, notes_rt,
      content_rt, optList_rt, getKey_obj_cons, getKey_obj_append, getKey_obj_segKey,
      parseList_map date_parse date_json date_canon date_pj,
      parseList_map duration_parse duration_json duration_canon duration_pj,
      parseList_map location_parse location_json location_canon location_pj,
      parseList_map source_parse source_json (fun s => s) source_pj,
      asOptStr_optStr, map_asOptStr_optStr, content_parse_json,
      truthyDates_eq_truthyList, h1, h2, h3, h4, h5, h6]

theorem pairs_parse_map (l : List (String × String)) :
    pairs_parse (l.map (fun kv => (kv.1, Json.str kv.2))) = some l := by
  induction l with
  | nil => rfl
  | cons a t ih =>
    obtain ⟨k, v⟩ := a
    simp [pairs_parse, ih]

theorem name_pj (n : TwigGraft.Name) : name_parse (name_json n) = some (name_canon n) := by
  rcases hd : n.date with _ | d0 <;>
  by_cases h5 : truthyList n.sources = true <;>
  by_cases h6 : TwigGraft.truthyNotes n.notes = true <;>
    simp [name_parse, name_json, name_canon, conclusion_json, statement_json,
      notes_json, arrField, getOptStr, notes_parse, notes_rt, optList_rt,
      pairs_parse_map, getKey_obj_cons, getKey_obj_append, getKey_obj_segKey,
      parseList_map source_parse source_json (fun s => s) source_pj,
      asOptStr_optStr, map_asOptStr_optStr, date_pj, hd, h5, h6]

theorem person_pj (p : TwigGraft.Person) :
    person_parse (person_json p) = some (person_canon p) := by
  by_cases h1 : truthyList p.names = true <;>
  by_cases h2 : truthyList p.facts = true <;>
  by_cases h5 : truthyList p.sources = true <;>
  by_cases h6 : TwigGraft.truthyNotes p.notes = true <;>
    simp [person_parse, person_json, person_canon, conclusion_json, statement_json,
      notes_json, arrField, getOptStr, notes_parse, notes_rt, optList_rt,
      getKey_obj_cons, getKey_obj_append, getKey_obj_segKey,
      parseList_map name_parse name_json name_canon name_pj,
      parseList_map fact_parse fact_json fact_canon fact_pj,
      parseList_map source_parse source_json (fun s => s) source_pj,
      asOptStr_optStr, map_asOptStr_optStr, h1, h2, h5, h6]

end PJson

namespace PJson

theorem isEmpty_map {α β : Type} (f : α → β) (l : List α) :
    (l.map f).isEmpty = l.isEmpty := by
  cases l <;> rfl

theorem segKey_notes_rt (o : Option (List (Option String))) :
    segKey (TwigGraft.truthyNotes (notes_rt o)) "notes" (notes_json ((notes_rt o).getD []))
      = segKey (TwigGraft.truthyNotes o) "notes" (notes_json (o.getD [])) := by
  rcases o with _ | l
  · rfl
  · by_cases h : TwigGraft.truthyNotes (some l) = true
    · have hrt : notes_rt (some l) = some ((some l).getD []) := by
        rw [notes_rt, if_pos h]
      rw [hrt]
      rfl
    · have hrt : notes_rt (some l) = none := by
        rw [notes_rt, if_neg h]
      have h2 : TwigGraft.truthyNotes (some l) = false := by
        cases htr : TwigGraft.truthyNotes (some l)
        · rfl
        · exact absurd htr h
      rw [hrt, h2]
      rfl

theorem segKey_content_rt (o : Option TwigGraft.Content) :
    segKey (TwigGraft.truthyContent (content_rt o)) "content"
        (content_json ((content_rt o).getD (.s "")))
      = segKey (TwigGraft.truthyContent o) "content" (content_json (o.getD (.s ""))) := by
  rcases o with _ | c
  · rfl
  · by_cases h : TwigGraft.truthyContent (some c) = true
    · have hrt : content_rt (some c) = some ((some c).getD (.s "")) := by
        rw [content_rt, if_pos h]
      rw [hrt]
      rfl
    · have hrt : content_rt (some c) = none := by
        rw [content_rt, if_neg h]
      have h2 : TwigGraft.truthyContent (some c) = false := by
        cases htr : TwigGraft.truthyContent (some c)
        · rfl
        · exact absurd htr h
      rw [hrt, h2]
      rfl

theorem segKey_optList_rt {α : Type} (f : α → α) (g : α → Json)
    (hfg : ∀ a, g (f a) = g a) (o : Option (List α)) (k : String) :
    segKey (truthyList (optList_rt f o)) k (.arr (((optList_rt f o).getD []).map g))
      = segKey (truthyList o) k (.arr ((o.getD []).map g)) := by
  rcases o with _ | l
  · rfl
  · by_cases h : truthyList (some l) = true
    · have hrt : optList_rt f (some l) = some (((some l).getD []).map f) := by
        rw [optList_rt, if_pos h]
      rw [hrt]
      have hte : truthyList (some (((some l).getD []).map f)) = truthyList (some l) := by
        simp [truthyList, isEmpty_map]
      rw [hte]
      have hv : ((some (((some l).getD []).map f)).getD []).map g = ((some l).getD []).map g := by
        simp [List.map_map, Function.comp, hfg]
      rw [hv]
    · have hrt : optList_rt f (some l) = none := by
        rw [optList_rt, if_neg h]
      have h2 : truthyList (some l) = false := by
        cases htr : truthyList (some l)
        · rfl
        · exact absurd htr h
      rw [hrt, h2]
      rfl

theorem statement_json_notes_rt (cf : Option String) (o : Option (List (Option String))) :
    statement_json cf (notes_rt o) = statement_json cf o := by
  rw [statement_json, statement_json, segKey_notes_rt]

theorem conclusion_json_rt (so : Option (List TwigGraft.Source)) (cf : Option String)
    (o : Option (List (Option String))) :
    conclusion_json (optList_rt (fun s => s) so) cf (notes_rt o)
      = conclusion_json so cf o := by
  rw [conclusion_json, conclusion_json, statement_json_notes_rt,
    segKey_optList_rt (fun s => s) source_json (fun a => rfl)]

theorem date_json_canon (d : TwigGraft.Date) : date_json (date_canon d) = date_json d := by
  simp only [date_json, date_canon]
  rw [segKey_notes_rt]

theorem duration_json_canon (d : TwigGraft.Duration) :
    duration_json (duration_canon d) = duration_json d := by
  simp only [duration_json, duration_canon, ydaStr]
  rw [segKey_notes_rt]

theorem location_json_canon (l : TwigGraft.Location) :
    location_json (location_canon l) = location_json l := by
  simp only [location_json, location_canon]
  rw [statement_json_notes_rt]

theorem fact_json_canon (f : TwigGraft.Fact) : fact_json (fact_canon f) = fact_json f := by
  simp only [fact_json, fact_canon, truthyDates_eq_truthyList]
  rw [segKey_content_rt, segKey_optList_rt date_canon date_json date_json_canon,
    segKey_optList_rt duration_canon duration_json duration_json_canon,
    segKey_optList_rt location_canon location_json location_json_canon,
    conclusion_json_rt]

theorem segKey_date_map_canon (o : Option TwigGraft.Date) :
    segKey (o.map date_canon).isSome "date"
        (date_json ((o.map date_canon).getD ⟨0, 0, 0, none⟩))
      = segKey o.isSome "date" (date_json (o.getD ⟨0, 0, 0, none⟩)) := by
  rcases o with _ | d
  · rfl
  · simp [date_json_canon]

theorem name_json_canon (n : TwigGraft.Name) : name_json (name_canon n) = name_json n := by
  simp only [name_json, name_canon]
  rw [segKey_date_map_canon, conclusion_json_rt]

theorem person_json_canon (p : TwigGraft.Person) :
    person_json (person_canon p) = person_json p := by
  simp only [person_json, person_canon]
  rw [segKey_optList_rt name_canon name_json name_json_canon,
    segKey_optList_rt fact_canon fact_json fact_json_canon,
    conclusion_json_rt]

end PJson

namespace PJson

/-- C9 (corrected): the serialize/deserialize cycle is lossless at the JSON
level — parsing a serialized Person and re-serializing reproduces the
original JSON object — and a serialized Person always carries `identifier`,
`gender` and `confidence`; but NO `merged` key is ever emitted (the src
Person class has no `merged` attribute and `Person.json` never writes one),
and `names`/`facts`/`sources`/`notes` keys are present only when the
corresponding attribute is truthy. -/
theorem c9_roundtrip_and_keys (p : TwigGraft.Person) :
    (person_parse (person_json p)).map person_json = some (person_json p) ∧
    hasKey (person_json p) "identifier" = true ∧
    hasKey (person_json p) "gender" = true ∧
    hasKey (person_json p) "confidence" = true ∧
    hasKey (person_json p) "merged" = false := by
  refine ⟨?_, ?_, ?_, ?_, ?_⟩
  · rw [person_pj]
    simp [person_json_canon]
  · simp [hasKey, person_json, getKey_obj_cons]
  · simp [hasKey, person_json, getKey_obj_cons]
  · simp [hasKey, person_json, conclusion_json, statement_json, getKey_obj_cons,
      getKey_obj_append, getKey_obj_segKey]
  · simp [hasKey, person_json, conclusion_json, statement_json, getKey_obj_cons,
      getKey_obj_append, getKey_obj_segKey, getKey_obj_nil]

/-- C9 counterexample: the serialization of a concrete Person carries no
`merged` key at all, and a Person without names gets no `names` key either,
refuting the claimed unconditional key set. -/
theorem c9_no_merged_key :
    hasKey (person_json ⟨"p0", some "m", none, none, none, none, some "normal"⟩)
      "merged" = false ∧
    hasKey (person_json ⟨"p0", some "m", none, none, none, none, some "normal"⟩)
      "names" = false := by
  decide

end PJson
